import Mathlib

/-!
Verification of the core logic of the ReportWriter inspection-report tool
(src/ReportWriter.py).  Python functions are embedded as Lean definitions,
following the source line by line; stateful widget code is embedded as
explicit state records with transition functions.  File-system access is
modelled by explicit finite maps from path strings to contents.
-/

set_option autoImplicit false

namespace ReportWriter

/-!
## Association-list lookup

Python dictionaries that only ever see distinct keys are modelled as
association lists; `alookup` mirrors `dict.get` / `in` tests.
-/

def alookup {α β : Type} [DecidableEq α] (k : α) : List (α × β) → Option β
  | [] => none
  | (a, b) :: rest => if a = k then some b else alookup k rest

/-!
## Numeric extraction

Embedding of `TestResultsSection.extract_numeric_value`
(src/ReportWriter.py:1464-1475).  The Python code returns `None` for a
falsy (empty) input, otherwise searches `text.strip()` for the first match
of the regular expression `[-+]?\d*\.?\d+` and converts the match with
`float(...)`.  Strings are modelled as `List Char`; the float value of the
matched token is modelled as a rational number.
-/

/-- Greedy match of the unsigned part `\d*\.?\d+` of the regular expression
at the head of `cs`: a maximal digit run, optionally followed by a dot and a
further maximal digit run; the dot is kept only when at least one digit
follows it, and the whole match fails when it would contain no digit. -/
def matchCore (cs : List Char) : Option (List Char) :=
  let d := cs.takeWhile Char.isDigit
  let rest := cs.dropWhile Char.isDigit
  match rest with
  | '.' :: rest2 =>
    let e := rest2.takeWhile Char.isDigit
    if e.isEmpty then (if d.isEmpty then none else some d)
    else some (d ++ '.' :: e)
  | _ => if d.isEmpty then none else some d

/-- Match of the full pattern `[-+]?\d*\.?\d+` anchored at the head of `cs`:
an optional sign character followed by `matchCore`.  When the head is a sign
character but nothing numeric follows, the position does not match (matching
with the empty sign also fails there, since a sign character is neither a
digit nor a dot). -/
def matchAt (cs : List Char) : Option (List Char) :=
  match cs with
  | [] => none
  | c :: rest =>
    if c = '-' ∨ c = '+' then (matchCore rest).map (fun t => c :: t)
    else matchCore (c :: rest)

/-- `re.search` semantics for this pattern: the match at the leftmost
position where the pattern matches. -/
def searchNum : List Char → Option (List Char)
  | [] => none
  | c :: rest =>
    match matchAt (c :: rest) with
    | some t => some t
    | none => searchNum rest

/-- Python `str.strip()`: remove leading and trailing whitespace. -/
def stripWS (cs : List Char) : List Char :=
  ((cs.dropWhile Char.isWhitespace).reverse.dropWhile Char.isWhitespace).reverse

/-- Decimal value of a digit run. -/
def digitsToNat (ds : List Char) : Nat :=
  ds.foldl (fun n c => 10 * n + (c.toNat - 48)) 0

/-- Value of an unsigned matched token (`d+`, `d+.e+`, or `.e+`). -/
def unsignedToRat (t : List Char) : ℚ :=
  let ip := t.takeWhile Char.isDigit
  let rest := t.dropWhile Char.isDigit
  match rest with
  | '.' :: fp => (digitsToNat ip : ℚ) + (digitsToNat fp : ℚ) / (10 : ℚ) ^ fp.length
  | _ => (digitsToNat ip : ℚ)

/-- `float(...)` applied to a matched token, sign included. -/
def tokenToRat (t : List Char) : ℚ :=
  match t with
  | '-' :: t2 => -(unsignedToRat t2)
  | '+' :: t2 => unsignedToRat t2
  | _ => unsignedToRat t

/-- Embedding of `TestResultsSection.extract_numeric_value`
(src/ReportWriter.py:1464-1475). -/
def extract_numeric_value (text : List Char) : Option ℚ :=
  if text.isEmpty then none
  else (searchNum (stripWS text)).map tokenToRat

/-!
## Temperature acceptability and its report sentence

`TestResultsSection.get_test_data` (src/ReportWriter.py:1533-1535) computes
`temp_ok = temp_numeric is not None and temp_numeric <= 95`, and
`ReportGeneratorApp.generate_report` (src/ReportWriter.py:4811-4820) prints
the temperature paragraph from it.
-/

/-- Embedding of the temperature acceptability flag
(src/ReportWriter.py:1535). -/
def temp_limit_check (temp_numeric : Option ℚ) : Bool :=
  match temp_numeric with
  | some v => decide (v ≤ 95)
  | none => false

/-- Embedding of the temperature paragraph of
`ReportGeneratorApp.generate_report` (src/ReportWriter.py:4811-4820). -/
def temperatureParagraph (raw : String) (numeric : Option ℚ) : String :=
  match numeric with
  | some _ =>
    if temp_limit_check numeric then
      "Temperature testing measured " ++ raw ++ " which is within acceptable operating limits (≤70°F)."
    else
      "Temperature testing measured " ++ raw ++ " which exceeds acceptable operating limits (>70°F)."
  | none =>
    if raw ≠ "" then "Temperature testing result: " ++ raw
    else "Temperature testing not performed."

/-!
## Status OK / NOT OK mutual exclusion

Embedding of `ComponentSection.toggle_status_checkbox`
(src/ReportWriter.py:1172-1182) as a state machine.  The state holds the
two status checkboxes of a status-bearing section together with the
dependent sub-observation selections (which the Python handler never
touches: it only changes container visibility and the opposite checkbox).
Checking a status box runs the Qt handler with state 2, which unchecks the
opposite box; unchecking only hides the dependent container.
-/

structure StatusState where
  okChecked : Bool
  notOkChecked : Bool
  okObs : List String
  notOkObs : List String
deriving DecidableEq

inductive StatusEvent where
  | setOK (b : Bool)
  | setNotOK (b : Bool)
  | chooseOkObs (l : List String)
  | chooseNotOkObs (l : List String)

/-- One user action on a status-bearing section.  The `setOK`/`setNotOK`
cases embed `toggle_status_checkbox`; the `choose` cases embed ticking the
dependent sub-observation checkboxes, which are independent widgets. -/
def stepStatus (s : StatusState) : StatusEvent → StatusState
  | .setOK true => { s with okChecked := true, notOkChecked := false }
  | .setOK false => { s with okChecked := false }
  | .setNotOK true => { s with notOkChecked := true, okChecked := false }
  | .setNotOK false => { s with notOkChecked := false }
  | .chooseOkObs l => { s with okObs := l }
  | .chooseNotOkObs l => { s with notOkObs := l }

/-- Initial state of a freshly built section: nothing checked. -/
def initStatus : StatusState := ⟨false, false, [], []⟩

/-- State reached after a sequence of user actions. -/
def runStatus (evs : List StatusEvent) : StatusState :=
  evs.foldl stepStatus initStatus

inductive SectionStatus where
  | unset
  | ok
  | notOk
deriving DecidableEq

/-- Abstract OK / NOT OK / Unset status of a section state. -/
def statusOf (s : StatusState) : SectionStatus :=
  if s.okChecked then .ok
  else if s.notOkChecked then .notOk
  else .unset

theorem stepStatus_excl {s : StatusState} (h : ¬(s.okChecked = true ∧ s.notOkChecked = true))
    (e : StatusEvent) :
    ¬((stepStatus s e).okChecked = true ∧ (stepStatus s e).notOkChecked = true) := by
  cases e with
  | setOK b => cases b <;> simp_all [stepStatus]
  | setNotOK b => cases b <;> simp_all [stepStatus]
  | chooseOkObs l => simpa [stepStatus] using h
  | chooseNotOkObs l => simpa [stepStatus] using h

theorem runStatus_excl (evs : List StatusEvent) :
    ¬((runStatus evs).okChecked = true ∧ (runStatus evs).notOkChecked = true) := by
  suffices h : ∀ s, ¬(s.okChecked = true ∧ s.notOkChecked = true) →
      ¬((evs.foldl stepStatus s).okChecked = true ∧ (evs.foldl stepStatus s).notOkChecked = true) by
    exact h initStatus (by simp [initStatus])
  induction evs with
  | nil => intro s hs; simpa using hs
  | cons e rest ih => intro s hs; exact ih (stepStatus s e) (stepStatus_excl hs e)

theorem searchNum_isNone (cs : List Char) :
    searchNum cs = none ↔ ∀ i, matchAt (cs.drop i) = none := by
  induction cs with
  | nil =>
    simp only [searchNum, List.drop_nil, true_iff]
    intro i; rfl
  | cons c rest ih =>
    constructor
    · intro h i
      cases hm : matchAt (c :: rest) with
      | some t => rw [searchNum, hm] at h; exact absurd h (by simp)
      | none =>
        rw [searchNum, hm] at h
        cases i with
        | zero => simpa using hm
        | succ j => exact (ih.mp h) j
    · intro h
      have h0 : matchAt (c :: rest) = none := by simpa using h 0
      rw [searchNum, h0]
      exact ih.mpr (fun j => by simpa using h (j + 1))

theorem searchNum_leftmost (cs : List Char) (t : List Char) (h : searchNum cs = some t) :
    ∃ i, matchAt (cs.drop i) = some t ∧ ∀ j, j < i → matchAt (cs.drop j) = none := by
  induction cs with
  | nil => exact absurd h (by simp [searchNum])
  | cons c rest ih =>
    cases hm : matchAt (c :: rest) with
    | some t0 =>
      rw [searchNum, hm] at h
      refine ⟨0, ?_, ?_⟩
      · simpa [hm] using h
      · intro j hj; omega
    | none =>
      rw [searchNum, hm] at h
      obtain ⟨i, hi, hbefore⟩ := ih h
      refine ⟨i + 1, by simpa using hi, ?_⟩
      intro j hj
      cases j with
      | zero => simpa using hm
      | succ k => simpa using hbefore k (by omega)

/-- Claim C9: `extract_numeric_value` returns the value of the leftmost
token of the shape `[-+]?\d*\.?\d+` in the stripped input, `83.5 dB`
extracts `83.5`, `n/a` extracts nothing, and the result is `None` exactly
when the input is empty or no position of the stripped input matches the
pattern. -/
theorem claim_C9 :
    extract_numeric_value "83.5 dB".data = some (83.5 : ℚ) ∧
    extract_numeric_value "n/a".data = none ∧
    (∀ cs : List Char, extract_numeric_value cs = none ↔
      (cs = [] ∨ ∀ i, matchAt ((stripWS cs).drop i) = none)) ∧
    (∀ cs t : List Char, searchNum cs = some t →
      ∃ i, matchAt (cs.drop i) = some t ∧ ∀ j, j < i → matchAt (cs.drop j) = none) := by
  have hs : searchNum (stripWS "83.5 dB".data) = some ['8', '3', '.', '5'] := by decide
  have ht : tokenToRat ['8', '3', '.', '5'] =
      (digitsToNat ['8', '3'] : ℚ) + (digitsToNat ['5'] : ℚ) / (10 : ℚ) ^ 1 := rfl
  have hd1 : digitsToNat ['8', '3'] = 83 := by decide
  have hd2 : digitsToNat ['5'] = 5 := by decide
  refine ⟨?_, ?_, ?_, searchNum_leftmost⟩
  · rw [extract_numeric_value, if_neg (by decide), hs, Option.map_some', ht, hd1, hd2]
    norm_num
  · rw [extract_numeric_value, if_neg (by decide),
      show searchNum (stripWS "n/a".data) = none from by decide, Option.map_none']
  · intro cs
    cases cs with
    | nil => simp [extract_numeric_value]
    | cons c rest =>
      rw [extract_numeric_value, if_neg (by simp)]
      rw [Option.map_eq_none']
      simpa using searchNum_isNone (stripWS (c :: rest))

theorem claim_C9_witness :
    ∃ i, matchAt (("x 5y".data).drop i) = some ['5'] ∧
      ∀ j, j < i → matchAt (("x 5y".data).drop j) = none :=
  claim_C9.2.2.2 "x 5y".data ['5'] (by decide)

/-- Claim C10: whenever the extracted temperature value `v` satisfies
`70 < v ≤ 95`, the acceptability flag is computed as `true` (the decision
threshold is 95), yet the emitted narrative sentence states the limit as
70°F. -/
theorem claim_C10 (raw : String) (v : ℚ) (h1 : extract_numeric_value raw.data = some v)
    (h2 : 70 < v) (h3 : v ≤ 95) :
    temp_limit_check (extract_numeric_value raw.data) = true ∧
    temperatureParagraph raw (extract_numeric_value raw.data) =
      "Temperature testing measured " ++ raw ++
        " which is within acceptable operating limits (≤70°F)." := by
  have hok : temp_limit_check (extract_numeric_value raw.data) = true := by
    rw [h1]; simpa [temp_limit_check] using h3
  refine ⟨hok, ?_⟩
  rw [h1] at hok ⊢
  simp [temperatureParagraph, hok]

theorem claim_C10_witness :
    temp_limit_check (extract_numeric_value "80 F".data) = true ∧
    temperatureParagraph "80 F" (extract_numeric_value "80 F".data) =
      "Temperature testing measured " ++ "80 F" ++
        " which is within acceptable operating limits (≤70°F)." :=
  claim_C10 "80 F" 80 (by decide) (by norm_num) (by norm_num)

/-- Claim C6: in every reachable state of a status-bearing section at most
one of Status: OK and Status: NOT OK is checked; checking either one
unchecks the other while preserving both dependent sub-selection data
fields; and unchecking the currently selected status returns the section to
the unset status. -/
theorem claim_C6 :
    (∀ evs, ¬((runStatus evs).okChecked = true ∧ (runStatus evs).notOkChecked = true)) ∧
    (∀ s : StatusState, (stepStatus s (.setOK true)).okChecked = true ∧
      (stepStatus s (.setOK true)).notOkChecked = false ∧
      (stepStatus s (.setOK true)).notOkObs = s.notOkObs ∧
      (stepStatus s (.setOK true)).okObs = s.okObs) ∧
    (∀ s : StatusState, (stepStatus s (.setNotOK true)).notOkChecked = true ∧
      (stepStatus s (.setNotOK true)).okChecked = false ∧
      (stepStatus s (.setNotOK true)).okObs = s.okObs ∧
      (stepStatus s (.setNotOK true)).notOkObs = s.notOkObs) ∧
    (∀ evs, statusOf (runStatus evs) = .ok →
      statusOf (stepStatus (runStatus evs) (.setOK false)) = .unset) ∧
    (∀ evs, statusOf (runStatus evs) = .notOk →
      statusOf (stepStatus (runStatus evs) (.setNotOK false)) = .unset) := by
  refine ⟨runStatus_excl, ?_, ?_, ?_, ?_⟩
  · intro s; refine ⟨rfl, rfl, rfl, rfl⟩
  · intro s; refine ⟨rfl, rfl, rfl, rfl⟩
  · intro evs h
    have hex := runStatus_excl evs
    by_cases hok : (runStatus evs).okChecked
    · have hn : (runStatus evs).notOkChecked = false := by
        cases hno : (runStatus evs).notOkChecked
        · rfl
        · exact absurd ⟨hok, hno⟩ hex
      simp [stepStatus, statusOf, hn]
    · rw [statusOf, if_neg hok] at h
      split at h <;> simp_all
  · intro evs h
    by_cases hok : (runStatus evs).okChecked
    · rw [statusOf, if_pos hok] at h; simp_all
    · simp [stepStatus, statusOf, hok]

theorem claim_C6_witness :
    statusOf (stepStatus (runStatus [.setNotOK true, .setOK true]) (.setOK false)) = .unset :=
  claim_C6.2.2.2.1 [.setNotOK true, .setOK true] (by decide)

/-!
## Vibration severity classification

Embedding of `TestResultsSection.get_vibration_classification`
(src/ReportWriter.py:1477-1523).  Python floats are modelled as real
numbers; `math.pow(x, 0.5)` is `Real.sqrt`.  `math.pow` raises `ValueError`
on a negative base with exponent 0.5, which the surrounding
`except (ValueError, ZeroDivisionError)` clause turns into
`("Unable to classify", False)`; the embedding makes this explicit as the
`r < 0` branch.  The source comment at line 1487 documents the calibration
intent: "Calibrated using ISO 10816 standards at reference point:
1400 RPM, 1.1 mm/s = Fair".
-/

open Classical in
noncomputable def get_vibration_classification (rpm vibration_value : Option ℝ) :
    String × Bool :=
  match rpm, vibration_value with
  | none, _ => ("Unable to classify", false)
  | _, none => ("Unable to classify", false)
  | some r, some v =>
    if r < 0 then ("Unable to classify", false)
    else
      let rpm_factor := Real.sqrt (r / 1000)
      if v ≤ 0.28 * rpm_factor then ("Extremely Smooth", true)
      else if v ≤ 0.45 * rpm_factor then ("Very Smooth", true)
      else if v ≤ 0.71 * rpm_factor then ("Smooth", true)
      else if v ≤ 1.12 * rpm_factor then ("Good", true)
      else if v ≤ 1.8 * rpm_factor then ("Fair", false)
      else if v ≤ 2.8 * rpm_factor then ("Slightly Rough", false)
      else if v ≤ 4.5 * rpm_factor then ("Rough", false)
      else if v ≤ 7.1 * rpm_factor then ("Very Rough", false)
      else ("Extremely Rough", false)

/-- Modelled from the spec (§4.4): the nine ascending severity bands, each a
fixed base threshold with its label and acceptability flag; the ninth band
("above") is the fallback. -/
noncomputable def vibrationBands : List (ℝ × String × Bool) :=
  [(0.28, "Extremely Smooth", true), (0.45, "Very Smooth", true),
   (0.71, "Smooth", true), (1.12, "Good", true),
   (1.8, "Fair", false), (2.8, "Slightly Rough", false),
   (4.5, "Rough", false), (7.1, "Very Rough", false)]

open Classical in
/-- Modelled from the spec (§4.4): return the first label whose threshold
(base times `sqrt(rpm/1000)`) is not exceeded, ties won by `≤`, falling back
to "Extremely Rough". -/
noncomputable def classifyVibrationSpec (r v : ℝ) : String × Bool :=
  let factor := Real.sqrt (r / 1000)
  match vibrationBands.find? (fun b => decide (v ≤ b.1 * factor)) with
  | some b => (b.2.1, b.2.2)
  | none => ("Extremely Rough", false)

/-- Claim C1: the code comment calls (1400 RPM, 1.1 mm/s) the "Fair"
calibration reference point, and the spec requires `("Fair", false)` there,
but the function actually returns `("Good", true)`: the Good threshold is
`1.12 * sqrt 1.4 ≈ 1.325`, which 1.1 does not exceed. -/
theorem claim_C1 :
    get_vibration_classification (some 1400) (some 1.1) = ("Good", true) := by
  have h0 : (1400 : ℝ) / 1000 = 1.4 := by norm_num
  have hub : Real.sqrt 1.4 ≤ 1.19 := by
    have h1 : Real.sqrt 1.4 ≤ Real.sqrt (1.19 ^ 2) := Real.sqrt_le_sqrt (by norm_num)
    rwa [Real.sqrt_sq (by norm_num)] at h1
  have hlb : (1.18 : ℝ) ≤ Real.sqrt 1.4 := by
    have h1 : Real.sqrt (1.18 ^ 2) ≤ Real.sqrt 1.4 := Real.sqrt_le_sqrt (by norm_num)
    rwa [Real.sqrt_sq (by norm_num)] at h1
  simp only [get_vibration_classification]
  rw [if_neg (by norm_num), h0]
  rw [if_neg (not_le.mpr (by linarith)), if_neg (not_le.mpr (by linarith)),
    if_neg (not_le.mpr (by linarith)), if_pos (by linarith)]

theorem classify_eq_spec (r v : ℝ) (hr : 0 ≤ r) :
    get_vibration_classification (some r) (some v) = classifyVibrationSpec r v := by
  simp only [get_vibration_classification, classifyVibrationSpec, vibrationBands]
  rw [if_neg (not_lt.mpr hr)]
  set s := Real.sqrt (r / 1000) with hs
  by_cases h1 : v ≤ 0.28 * s
  · simp [List.find?, h1]
  by_cases h2 : v ≤ 0.45 * s
  · simp [List.find?, h1, h2]
  by_cases h3 : v ≤ 0.71 * s
  · simp [List.find?, h1, h2, h3]
  by_cases h4 : v ≤ 1.12 * s
  · simp [List.find?, h1, h2, h3, h4]
  by_cases h5 : v ≤ 1.8 * s
  · simp [List.find?, h1, h2, h3, h4, h5]
  by_cases h6 : v ≤ 2.8 * s
  · simp [List.find?, h1, h2, h3, h4, h5, h6]
  by_cases h7 : v ≤ 4.5 * s
  · simp [List.find?, h1, h2, h3, h4, h5, h6, h7]
  by_cases h8 : v ≤ 7.1 * s
  · simp [List.find?, h1, h2, h3, h4, h5, h6, h7, h8]
  · simp [List.find?, h1, h2, h3, h4, h5, h6, h7, h8]

/-- Claim C7: a missing rpm or vibration input classifies as
`("Unable to classify", false)`; for non-negative rpm the classifier agrees
with the spec's first-band-not-exceeded rule over the nine ascending bands
scaled by `sqrt(rpm/1000)` with `≤` tie-break, the first four bands
acceptable; and `classifyVibration(1000, 0.2) = ("Extremely Smooth", true)`. -/
theorem claim_C7 :
    (∀ v, get_vibration_classification none v = ("Unable to classify", false)) ∧
    (∀ r, get_vibration_classification r none = ("Unable to classify", false)) ∧
    (∀ r v : ℝ, 0 ≤ r →
      get_vibration_classification (some r) (some v) = classifyVibrationSpec r v) ∧
    get_vibration_classification (some 1000) (some 0.2) = ("Extremely Smooth", true) := by
  refine ⟨fun v => by cases v <;> rfl, fun r => by cases r <;> rfl, classify_eq_spec, ?_⟩
  · have h0 : (1000 : ℝ) / 1000 = 1 := by norm_num
    simp only [get_vibration_classification]
    rw [if_neg (by norm_num), h0, Real.sqrt_one]
    rw [if_pos (by norm_num)]

theorem claim_C7_witness :
    get_vibration_classification (some 1000) (some 0.2) = classifyVibrationSpec 1000 0.2 :=
  claim_C7.2.2.1 1000 0.2 (by norm_num)

/-!
## Equipment tabs and ordinal renumbering

Embedding of the equipment tab bookkeeping of `ReportGeneratorApp`:
`add_motor_tab`/`add_compressor_tab`/`add_coil_tab`/`add_valve_tab`
(src/ReportWriter.py:3243-3279) each increment the per-kind counter and
append a tab numbered with it; `remove_equipment_tab`
(src/ReportWriter.py:3281-3330) removes the tab (on a confirmed dialog),
sets the removed kind's counter to the remaining list length, and renumbers
every kind's tabs 1..N in widget order; `load_progress_from_path`
(src/ReportWriter.py:4075-4117) clears all four tab lists and counters
before re-adding the loaded equipment, while `load_progress`
(src/ReportWriter.py:4171-4211) clears only the motor, compressor and coil
lists and counters — the valve list and `valve_count` keep their previous
values.  A tab is modelled as its kind and its displayed ordinal.
-/

inductive EquipKind where
  | motor
  | compressor
  | coil
  | valve
deriving DecidableEq

structure EquipState where
  tabs : List (EquipKind × Nat)
  motorCount : Nat
  compressorCount : Nat
  coilCount : Nat
  valveCount : Nat
deriving DecidableEq

def getCount (s : EquipState) : EquipKind → Nat
  | .motor => s.motorCount
  | .compressor => s.compressorCount
  | .coil => s.coilCount
  | .valve => s.valveCount

def setCount (s : EquipState) (k : EquipKind) (n : Nat) : EquipState :=
  match k with
  | .motor => { s with motorCount := n }
  | .compressor => { s with compressorCount := n }
  | .coil => { s with coilCount := n }
  | .valve => { s with valveCount := n }

/-- Embedding of `add_motor_tab` and its three siblings
(src/ReportWriter.py:3243-3279): bump the kind's counter and append a tab
carrying the new counter value as its ordinal. -/
def add_equipment_tab (s : EquipState) (k : EquipKind) : EquipState :=
  let c := getCount s k + 1
  { setCount s k c with tabs := s.tabs ++ [(k, c)] }

/-- Number of tabs of one kind, in any tab list. -/
def countKind (ts : List (EquipKind × Nat)) (k : EquipKind) : Nat :=
  (ts.filter (fun t => decide (t.1 = k))).length

/-- The renumbering loop of `remove_equipment_tab`
(src/ReportWriter.py:3309-3330): walk the remaining tabs in widget order,
giving each kind consecutive ordinals from its running index. -/
def renumberFrom : List (EquipKind × Nat) → (EquipKind → Nat) → List (EquipKind × Nat)
  | [], _ => []
  | (k, _) :: rest, idx =>
    (k, idx k) :: renumberFrom rest (fun k2 => if k2 = k then idx k + 1 else idx k2)

/-- Embedding of `remove_equipment_tab` (src/ReportWriter.py:3281-3330) for
a confirmed removal: drop the tab at `i`, set the removed kind's counter to
the remaining number of tabs of that kind, and renumber everything starting
from 1 per kind.  An out-of-range index (or an unconfirmed dialog) changes
nothing. -/
def remove_equipment_tab (s : EquipState) (i : Nat) : EquipState :=
  match s.tabs[i]? with
  | none => s
  | some (k, _) =>
    let tabs2 := s.tabs.eraseIdx i
    let s2 := setCount { s with tabs := tabs2 } k (countKind tabs2 k)
    { s2 with tabs := renumberFrom tabs2 (fun _ => 1) }

def emptyEquip : EquipState := ⟨[], 0, 0, 0, 0⟩

/-- Embedding of `load_progress_from_path` (src/ReportWriter.py:4075-4117):
all four tab lists and counters are reset before the loaded equipment is
re-added one tab at a time. -/
def load_progress_from_path (eqs : List EquipKind) : EquipState :=
  eqs.foldl add_equipment_tab emptyEquip

/-- Embedding of `load_progress` (src/ReportWriter.py:4171-4211): all tabs
are removed from the widget and the motor, compressor and coil lists and
counters are reset, but `valve_tabs`/`valve_count` are left untouched, so
the loaded valves continue numbering from the previous session's counter. -/
def load_progress (s : EquipState) (eqs : List EquipKind) : EquipState :=
  eqs.foldl add_equipment_tab
    { tabs := [], motorCount := 0, compressorCount := 0, coilCount := 0,
      valveCount := s.valveCount }

inductive EquipEvent where
  | add (k : EquipKind)
  | remove (i : Nat)
  | loadPath (eqs : List EquipKind)

def stepEquip (s : EquipState) : EquipEvent → EquipState
  | .add k => add_equipment_tab s k
  | .remove i => remove_equipment_tab s i
  | .loadPath eqs => load_progress_from_path eqs

/-- State after a sequence of add/remove/load-from-path operations, starting
from the empty application state. -/
def runEquip (evs : List EquipEvent) : EquipState :=
  evs.foldl stepEquip emptyEquip

/-- Displayed ordinals of the tabs of one kind, in widget order. -/
def ordinalsOf (s : EquipState) (k : EquipKind) : List Nat :=
  (s.tabs.filter (fun t => decide (t.1 = k))).map Prod.snd

/-- The dense-ordinal invariant: per kind, the ordinals read 1..N in widget
order and the kind's counter equals its number of tabs. -/
def DenseOrdinals (s : EquipState) : Prop :=
  ∀ k, ordinalsOf s k = List.range' 1 (countKind s.tabs k) ∧
    getCount s k = countKind s.tabs k

theorem getCount_setCount_self (s : EquipState) (k : EquipKind) (n : Nat) :
    getCount (setCount s k n) k = n := by
  cases k <;> rfl

theorem getCount_setCount_ne (s : EquipState) {k k2 : EquipKind} (n : Nat) (h : k2 ≠ k) :
    getCount (setCount s k n) k2 = getCount s k2 := by
  cases k <;> cases k2 <;> first | rfl | exact absurd rfl h

theorem tabs_setCount (s : EquipState) (k : EquipKind) (n : Nat) :
    (setCount s k n).tabs = s.tabs := by
  cases k <;> rfl

theorem countKind_append (ts us : List (EquipKind × Nat)) (k : EquipKind) :
    countKind (ts ++ us) k = countKind ts k + countKind us k := by
  simp [countKind]

theorem dense_add {s : EquipState} (hs : DenseOrdinals s) (k : EquipKind) :
    DenseOrdinals (add_equipment_tab s k) := by
  intro k2
  have hk2 := hs k2
  by_cases h : k2 = k
  · subst h
    have hord : ordinalsOf (add_equipment_tab s k2) k2 = ordinalsOf s k2 ++ [getCount s k2 + 1] := by
      simp [ordinalsOf, add_equipment_tab, List.filter_append]
    have hcount : countKind (add_equipment_tab s k2).tabs k2 = countKind s.tabs k2 + 1 := by
      simp [add_equipment_tab, countKind_append, countKind]
    constructor
    · rw [hord, hk2.1, hk2.2, hcount]
      simpa [Nat.add_comm] using (@List.range'_concat 1 1 (countKind s.tabs k2)).symm
    · rw [hcount]
      show getCount (setCount s k2 (getCount s k2 + 1)) k2 = _
      rw [getCount_setCount_self, hk2.2]
  · have h2 : ¬k = k2 := fun hh => h hh.symm
    have hord : ordinalsOf (add_equipment_tab s k) k2 = ordinalsOf s k2 := by
      simp [ordinalsOf, add_equipment_tab, List.filter_append, h2]
    have hcount : countKind (add_equipment_tab s k).tabs k2 = countKind s.tabs k2 := by
      simp [add_equipment_tab, countKind_append, countKind, h2]
    constructor
    · rw [hord, hcount]; exact hk2.1
    · rw [hcount]
      show getCount (setCount s k (getCount s k + 1)) k2 = _
      rw [getCount_setCount_ne _ _ h]
      exact hk2.2

theorem renumberFrom_filter (k : EquipKind) :
    ∀ (ts : List (EquipKind × Nat)) (idx : EquipKind → Nat),
      ((renumberFrom ts idx).filter (fun t => decide (t.1 = k))).map Prod.snd =
        List.range' (idx k) (countKind ts k) := by
  intro ts
  induction ts with
  | nil => intro idx; simp [renumberFrom, countKind]
  | cons hd rest ih =>
    intro idx
    obtain ⟨k0, m⟩ := hd
    rw [renumberFrom]
    by_cases h : k0 = k
    · subst h
      simp [List.filter_cons, countKind, List.range'_succ,
        ih (fun k2 => if k2 = k0 then idx k0 + 1 else idx k2)]
    · have h2 : ¬k = k0 := fun hh => h hh.symm
      simp [List.filter_cons, countKind, h, h2,
        ih (fun k2 => if k2 = k0 then idx k0 + 1 else idx k2)]

theorem countKind_cons (a : EquipKind × Nat) (l : List (EquipKind × Nat)) (k : EquipKind) :
    countKind (a :: l) k = if a.1 = k then countKind l k + 1 else countKind l k := by
  by_cases ha : a.1 = k <;> simp [countKind, List.filter_cons, ha]

theorem countKind_renumberFrom (k : EquipKind) :
    ∀ (ts : List (EquipKind × Nat)) (idx : EquipKind → Nat),
      countKind (renumberFrom ts idx) k = countKind ts k := by
  intro ts
  induction ts with
  | nil => intro idx; rfl
  | cons hd rest ih =>
    intro idx
    obtain ⟨k0, m⟩ := hd
    rw [renumberFrom, countKind_cons, countKind_cons,
      ih (fun k2 => if k2 = k0 then idx k0 + 1 else idx k2)]

theorem countKind_eraseIdx_ne :
    ∀ (ts : List (EquipKind × Nat)) (i : Nat) (k0 : EquipKind) (m : Nat),
      ts[i]? = some (k0, m) → ∀ k, k ≠ k0 → countKind (ts.eraseIdx i) k = countKind ts k := by
  intro ts
  induction ts with
  | nil => intro i k0 m h; simp at h
  | cons hd rest ih =>
    intro i k0 m h k hk
    cases i with
    | zero =>
      obtain rfl : hd = (k0, m) := by simpa using h
      have hk2 : ¬((k0, m).1 = k) := fun hh => hk hh.symm
      simp [List.eraseIdx, countKind, List.filter_cons, hk2]
    | succ j =>
      have hj : rest[j]? = some (k0, m) := by simpa using h
      have := ih j k0 m hj k hk
      by_cases hhd : hd.1 = k
      · simpa [List.eraseIdx, countKind, List.filter_cons, hhd] using this
      · simpa [List.eraseIdx, countKind, List.filter_cons, hhd] using this

theorem dense_remove {s : EquipState} (hs : DenseOrdinals s) (i : Nat) :
    DenseOrdinals (remove_equipment_tab s i) := by
  cases hget : s.tabs[i]? with
  | none => simpa [remove_equipment_tab, hget] using hs
  | some t =>
    obtain ⟨k0, m⟩ := t
    intro k
    constructor
    · simp only [ordinalsOf, remove_equipment_tab, hget]
      rw [renumberFrom_filter, countKind_renumberFrom]
    · simp only [remove_equipment_tab, hget]
      rw [countKind_renumberFrom]
      by_cases hk : k = k0
      · subst hk
        cases k <;> simp [getCount, setCount]
      · have h1 : getCount s k = countKind s.tabs k := (hs k).2
        have h2 := countKind_eraseIdx_ne s.tabs i k0 m hget k hk
        rw [h2]
        cases k0 <;> cases k <;>
          first
          | exact absurd rfl hk
          | simpa [getCount, setCount] using h1

theorem dense_empty : DenseOrdinals emptyEquip := by
  intro k; exact ⟨rfl, by cases k <;> rfl⟩

theorem dense_foldl_add {eqs : List EquipKind} :
    ∀ {s : EquipState}, DenseOrdinals s → DenseOrdinals (eqs.foldl add_equipment_tab s) := by
  induction eqs with
  | nil => intro s hs; simpa using hs
  | cons k rest ih => intro s hs; exact ih (dense_add hs k)

/-- Claim C8: add/remove sequences (and loads through
`load_progress_from_path`) keep the per-kind ordinals a dense 1..N sequence,
but `load_progress` does not: with one valve open from the previous session,
loading a project containing one valve produces the single valve tab
"Valve 2" — its ordinals are [2], not 1..N. -/
theorem claim_C8 :
    (∀ evs, DenseOrdinals (runEquip evs)) ∧
    ordinalsOf (load_progress (runEquip [.add .valve]) [.valve]) .valve = [2] ∧
    countKind (load_progress (runEquip [.add .valve]) [.valve]).tabs .valve = 1 ∧
    ordinalsOf (load_progress (runEquip [.add .valve]) [.valve]) .valve ≠
      List.range' 1 (countKind (load_progress (runEquip [.add .valve]) [.valve]).tabs .valve) := by
  refine ⟨?_, by decide, by decide, by decide⟩
  intro evs
  suffices h : ∀ s, DenseOrdinals s → DenseOrdinals (evs.foldl stepEquip s) from
    h emptyEquip dense_empty
  induction evs with
  | nil => intro s hs; simpa using hs
  | cons e rest ih =>
    intro s hs
    refine ih (stepEquip s e) ?_
    cases e with
    | add k => exact dense_add hs k
    | remove i => exact dense_remove hs i
    | loadPath eqs => exact dense_foldl_add dense_empty

/-!
## Image store and content-addressed copying

Embedding of `ReportGeneratorApp._copy_images` (src/ReportWriter.py:3993-4040).
The project's `images/` folder is modelled as an association list from
filename to file content (a `Nat` abstracting the bytes); a source image is
its absolute path together with its content, or `none` when
`os.path.exists` fails.  For each existing source, the code first checks the
exact base filename against the store (reuse on equal bytes), then walks the
candidate names `name`, `base_1.ext`, `base_2.ext`, ... until it finds a
stored name with equal bytes (reuse, no copy) or a free name (copy).  The
walk is embedded as a scan over the candidate sequence — the initial
exact-name check of lines 4006-4013 coincides with candidate 0, which the
`while` loop re-checks anyway — with fuel `store.length + 1`, which is
proved sufficient below (the candidates are pairwise distinct in every run
considered, so a free candidate occurs within the first
`store.length + 1`).
-/

abbrev FileBytes := Nat

abbrev ImageStore := List (String × FileBytes)

structure SrcImage where
  path : String
  bytes : Option FileBytes
deriving DecidableEq

/-- Characters after the last slash, or `none` when there is no slash. -/
def afterSlash : List Char → Option (List Char)
  | [] => none
  | c :: rest =>
    match afterSlash rest with
    | some t => some t
    | none => if c = '/' then some rest else none

/-- `os.path.basename`: the part after the last slash. -/
def baseName (p : String) : String :=
  match afterSlash p.data with
  | some t => ⟨t⟩
  | none => p

/-- Split a list around its last dot: `splitLastDot cs = some (r, e)` when
`cs = r ++ dot :: e` and `e` is dot-free. -/
def splitLastDot : List Char → Option (List Char × List Char)
  | [] => none
  | c :: rest =>
    match splitLastDot rest with
    | some (r, e) => some (c :: r, e)
    | none => if c = '.' then some ([], rest) else none

/-- `os.path.splitext` on a bare filename: split at the last dot, except
that a leading run of dots belongs to the root (so ".bashrc" has no
extension). -/
def splitExt (f : String) : String × String :=
  let cs := f.data
  let lead := cs.takeWhile (fun c => c = '.')
  let rest := cs.dropWhile (fun c => c = '.')
  match splitLastDot rest with
  | some (r, e) => (⟨lead ++ r⟩, ⟨'.' :: e⟩)
  | none => (f, "")

/-- The candidate target names tried by `_copy_images`: the source's base
filename first, then `f"{base}_{counter}{ext}"` for counter 1, 2, ... -/
def candName (base ext : String) : Nat → String
  | 0 => base ++ ext
  | k + 1 => base ++ "_" ++ toString (k + 1) ++ ext

/-- A candidate index is good when its name is free in the store or is
stored with exactly the source's bytes (`filecmp.cmp` equal). -/
def goodIdx (st : ImageStore) (content : FileBytes) (cand : Nat → String) (k : Nat) : Bool :=
  match alookup (cand k) st with
  | none => true
  | some c => decide (c = content)

/-- The candidate walk of the `while` loop (src/ReportWriter.py:4017-4033):
return the first good candidate index at or after `k0`, with explicit fuel. -/
def findGood (st : ImageStore) (content : FileBytes) (cand : Nat → String) :
    Nat → Nat → Nat
  | 0, k0 => k0
  | fuel + 1, k0 =>
    if goodIdx st content cand k0 then k0
    else findGood st content cand fuel (k0 + 1)

/-- The candidate-name function of a source image: `os.path.basename`, then
`os.path.splitext`, then the numbered names. -/
def candOf (img : SrcImage) : Nat → String :=
  candName (splitExt (baseName img.path)).1 (splitExt (baseName img.path)).2

/-- Embedding of one iteration of the `for img_path in image_paths` loop of
`_copy_images`: skip a missing source; otherwise find the first good
candidate name and either reuse it (bytes already stored under it — no
copy) or copy the bytes to it. -/
def copyOne (st : ImageStore) (img : SrcImage) : ImageStore × Option String :=
  match img.bytes with
  | none => (st, none)
  | some content =>
    let cand := candOf img
    let k := findGood st content cand (st.length + 1) 0
    match alookup (cand k) st with
    | some _ => (st, some (cand k))
    | none => (st ++ [(cand k, content)], some (cand k))

/-- One `copied_paths` accumulation step of `_copy_images`. -/
def copyStep (acc : ImageStore × List String) (img : SrcImage) : ImageStore × List String :=
  let r := copyOne acc.1 img
  (r.1, acc.2 ++ r.2.toList)

/-- Embedding of `ReportGeneratorApp._copy_images`
(src/ReportWriter.py:3993-4040): thread the store through the images,
collecting the stored (relative) name of each existing source. -/
def copy_images (st : ImageStore) (imgs : List SrcImage) : ImageStore × List String :=
  imgs.foldl copyStep (st, [])

/-- The first `m` candidate names of a source image are pairwise distinct.
This holds for every real filename (the decimal counters make the names
differ), and is decidable for each concrete image and bound. -/
def candsOK (img : SrcImage) (m : Nat) : Prop :=
  ((List.range m).map (candOf img)).Nodup

theorem alookup_append {α β : Type} [DecidableEq α] (k : α) (l1 l2 : List (α × β)) :
    alookup k (l1 ++ l2) =
      match alookup k l1 with
      | some b => some b
      | none => alookup k l2 := by
  induction l1 with
  | nil => simp [alookup]
  | cons hd tl ih =>
    obtain ⟨a, b⟩ := hd
    by_cases h : a = k <;> simp [alookup, h, ih]

theorem alookup_eq_none {α β : Type} [DecidableEq α] (k : α) (l : List (α × β)) :
    alookup k l = none ↔ k ∉ l.map Prod.fst := by
  induction l with
  | nil => simp [alookup]
  | cons hd tl ih =>
    obtain ⟨a, b⟩ := hd
    by_cases h : a = k
    · subst h; simp [alookup]
    · simp only [alookup, if_neg h, List.map_cons, List.mem_cons]
      rw [ih]
      constructor
      · intro h1 h2
        rcases h2 with h2 | h2
        · exact h h2.symm
        · exact h1 h2
      · intro h1 h2
        exact h1 (Or.inr h2)

theorem alookup_mem_of_some {α β : Type} [DecidableEq α] {k : α} {l : List (α × β)} {b : β}
    (h : alookup k l = some b) : k ∈ l.map Prod.fst := by
  by_contra hmem
  rw [← alookup_eq_none k l] at hmem
  rw [h] at hmem
  exact absurd hmem (by simp)

theorem nodup_length_le {α : Type} [DecidableEq α] (l1 l2 : List α)
    (h1 : l1.Nodup) (h2 : l1 ⊆ l2) : l1.length ≤ l2.length := by
  calc l1.length = l1.toFinset.card := (List.toFinset_card_of_nodup h1).symm
    _ ≤ l2.toFinset.card := Finset.card_le_card (fun x hx => by
        simp only [List.mem_toFinset] at hx ⊢; exact h2 hx)
    _ ≤ l2.length := l2.toFinset_card_le

theorem exists_good (st : ImageStore) (content : FileBytes) (cand : Nat → String)
    (hn : ((List.range (st.length + 1)).map cand).Nodup) :
    ∃ j, j ≤ st.length ∧ goodIdx st content cand j = true := by
  by_contra hno
  push_neg at hno
  have hmem : ∀ j, j ≤ st.length → cand j ∈ st.map Prod.fst := by
    intro j hj
    have hbad := hno j hj
    rw [goodIdx] at hbad
    cases hl : alookup (cand j) st with
    | none => rw [hl] at hbad; exact absurd rfl hbad
    | some c => exact alookup_mem_of_some hl
  have hsub : ((List.range (st.length + 1)).map cand) ⊆ st.map Prod.fst := by
    intro x hx
    obtain ⟨j, hj, rfl⟩ := List.mem_map.mp hx
    exact hmem j (by simpa [Nat.lt_succ_iff] using List.mem_range.mp hj)
  have hlen := nodup_length_le _ _ hn hsub
  have hlen2 : st.length + 1 ≤ (st.map Prod.fst).length := by simpa using hlen
  have hlen3 : (st.map Prod.fst).length = st.length := by simp
  omega

theorem findGood_eq (st : ImageStore) (content : FileBytes) (cand : Nat → String) :
    ∀ (fuel k0 j : Nat), j < fuel →
      goodIdx st content cand (k0 + j) = true →
      (∀ m, m < j → goodIdx st content cand (k0 + m) = false) →
      findGood st content cand fuel k0 = k0 + j := by
  intro fuel
  induction fuel with
  | zero => intro k0 j hj; omega
  | succ f ih =>
    intro k0 j hj hgood hbad
    rw [findGood]
    by_cases h0 : goodIdx st content cand k0 = true
    · cases j with
      | zero => simp [h0]
      | succ j2 =>
        have := hbad 0 (by omega)
        simp at this
        rw [this] at h0
        exact absurd h0 (by simp)
    · rw [if_neg h0]
      cases j with
      | zero => simp at hgood; exact absurd hgood h0
      | succ j2 =>
        have heq : k0 + (j2 + 1) = (k0 + 1) + j2 := by omega
        rw [heq] at hgood ⊢
        exact ih (k0 + 1) j2 (by omega) hgood
          (fun m hm => by
            have := hbad (m + 1) (by omega)
            simpa [show k0 + (m + 1) = k0 + 1 + m from by omega] using this)

/-- The least good index of the fuelled walk: with pairwise-distinct
candidates the fuel `st.length + 1` always suffices, and the result is the
least good index. -/
theorem findGood_least (st : ImageStore) (content : FileBytes) (cand : Nat → String)
    (hn : ((List.range (st.length + 1)).map cand).Nodup) :
    goodIdx st content cand (findGood st content cand (st.length + 1) 0) = true ∧
    (∀ m, m < findGood st content cand (st.length + 1) 0 →
      goodIdx st content cand m = false) ∧
    findGood st content cand (st.length + 1) 0 ≤ st.length := by
  obtain ⟨j, hj, hjgood⟩ := exists_good st content cand hn
  have hex : ∃ j2, goodIdx st content cand j2 = true := ⟨j, hjgood⟩
  classical
  let j0 := Nat.find hex
  have hj0good : goodIdx st content cand j0 = true := Nat.find_spec hex
  have hj0min : ∀ m, m < j0 → goodIdx st content cand m = false := by
    intro m hm
    have := Nat.find_min hex hm
    simpa using this
  have hj0le : j0 ≤ j := by
    by_contra hlt
    push_neg at hlt
    rw [hj0min j hlt] at hjgood
    exact absurd hjgood (by simp)
  have heq : findGood st content cand (st.length + 1) 0 = j0 := by
    have := findGood_eq st content cand (st.length + 1) 0 j0 (by omega)
      (by simpa using hj0good) (fun m hm => by simpa using hj0min m hm)
    simpa using this
  rw [heq]
  exact ⟨hj0good, hj0min, by omega⟩

theorem copyOne_shape (st : ImageStore) (img : SrcImage) (n : String)
    (h : (copyOne st img).2 = some n) : ∃ k, n = candOf img k := by
  obtain ⟨p, bytes⟩ := img
  cases bytes with
  | none => simp [copyOne] at h
  | some content =>
    rw [copyOne] at h
    simp only at h
    split at h
    · simp only [Option.some.injEq] at h
      exact ⟨_, h.symm⟩
    · simp only [Option.some.injEq] at h
      exact ⟨_, h.symm⟩

theorem copyOne_nodup (st : ImageStore) (img : SrcImage)
    (hn : (st.map Prod.fst).Nodup) : (((copyOne st img).1).map Prod.fst).Nodup := by
  obtain ⟨p, bytes⟩ := img
  cases bytes with
  | none => simpa [copyOne] using hn
  | some content =>
    rw [copyOne]
    simp only
    split
    · simpa using hn
    · rename_i heq
      simp only [List.map_append, List.map_cons, List.map_nil]
      rw [List.nodup_append]
      refine ⟨hn, by simp, fun x hx hx2 => ?_⟩
      simp only [List.mem_cons, List.not_mem_nil, or_false] at hx2
      subst hx2
      exact absurd hx ((alookup_eq_none _ _).mp heq)

theorem copy_images_nodup (imgs : List SrcImage) :
    ∀ (st : ImageStore) (ps : List String), (st.map Prod.fst).Nodup →
      (((imgs.foldl copyStep (st, ps)).1).map Prod.fst).Nodup := by
  induction imgs with
  | nil => intro st ps hn; simpa using hn
  | cons img rest ih =>
    intro st ps hn
    exact ih (copyOne st img).1 _ (copyOne_nodup st img hn)

theorem copyOne_append (st : ImageStore) (img : SrcImage) :
    ∃ d, (copyOne st img).1 = st ++ d ∧ d.length ≤ 1 := by
  obtain ⟨p, bytes⟩ := img
  cases bytes with
  | none => exact ⟨[], by simp [copyOne]⟩
  | some content =>
    rw [copyOne]
    simp only
    split
    · exact ⟨[], by simp⟩
    · exact ⟨_, rfl, by simp⟩

theorem candsOK_mono {img : SrcImage} {m n : Nat} (h : candsOK img m) (hle : n ≤ m) :
    candsOK img n := by
  have hsub : List.Sublist ((List.range n).map (candOf img)) ((List.range m).map (candOf img)) :=
    List.Sublist.map _ ((List.range_sublist).mpr hle)
  exact h.sublist hsub

theorem copyOne_stable (st : ImageStore) (img : SrcImage)
    (hn : candsOK img (st.length + 1)) (ext : ImageStore)
    (hext : ∃ tail, ext = (copyOne st img).1 ++ tail) :
    copyOne ext img = (ext, (copyOne st img).2) := by
  obtain ⟨p, bytes⟩ := img
  cases bytes with
  | none =>
    obtain ⟨tail, htail⟩ := hext
    rfl
  | some content =>
    obtain ⟨hgood, hmin, hle⟩ := findGood_least st content (candOf ⟨p, some content⟩) hn
    set cand := candOf ⟨p, some content⟩ with hcand
    set k := findGood st content cand (st.length + 1) 0 with hk
    obtain ⟨tail, htail⟩ := hext
    have hbad_st : ∀ m, m < k → ∃ cm, alookup (cand m) st = some cm ∧ cm ≠ content := by
      intro m hm
      have hb := hmin m hm
      rw [goodIdx] at hb
      cases hbl : alookup (cand m) st with
      | none => rw [hbl] at hb; exact absurd hb (by simp)
      | some cm =>
        rw [hbl] at hb
        exact ⟨cm, rfl, by simpa using hb⟩
    cases hl : alookup (cand k) st with
    | some c =>
      have hres : copyOne st ⟨p, some content⟩ = (st, some (cand k)) := by
        rw [copyOne]
        simp only
        rw [← hcand, ← hk, hl]
      have hc : c = content := by
        rw [goodIdx, hl] at hgood
        simpa using hgood
      rw [hres] at htail
      simp only at htail
      have hlook_ext : alookup (cand k) ext = some content := by
        rw [htail, alookup_append, hl, hc]
      have hbad_ext : ∀ m, m < k → goodIdx ext content cand m = false := by
        intro m hm
        obtain ⟨cm, hcm, hne⟩ := hbad_st m hm
        rw [goodIdx, htail, alookup_append, hcm]
        simpa using hne
      have hlen_ext : st.length ≤ ext.length := by
        rw [htail]; simp
      have hk_ext : findGood ext content cand (ext.length + 1) 0 = k := by
        have := findGood_eq ext content cand (ext.length + 1) 0 k (by omega)
          (by simp only [Nat.zero_add]; rw [goodIdx, hlook_ext]; simp)
          (fun m hm => by simpa using hbad_ext m hm)
        simpa using this
      have : copyOne ext ⟨p, some content⟩ = (ext, some (cand k)) := by
        rw [copyOne]
        simp only
        rw [← hcand, hk_ext, hlook_ext]
      rw [this, hres]
    | none =>
      have hres : copyOne st ⟨p, some content⟩ = (st ++ [(cand k, content)], some (cand k)) := by
        rw [copyOne]
        simp only
        rw [← hcand, ← hk, hl]
      rw [hres] at htail
      simp only at htail
      have hlook_ext : alookup (cand k) ext = some content := by
        rw [htail, List.append_assoc, alookup_append, hl]
        simp [alookup]
      have hbad_ext : ∀ m, m < k → goodIdx ext content cand m = false := by
        intro m hm
        obtain ⟨cm, hcm, hne⟩ := hbad_st m hm
        rw [goodIdx, htail, List.append_assoc, alookup_append, hcm]
        simpa using hne
      have hlen_ext : st.length + 1 ≤ ext.length := by
        rw [htail]; simp
      have hk_ext : findGood ext content cand (ext.length + 1) 0 = k := by
        have := findGood_eq ext content cand (ext.length + 1) 0 k (by omega)
          (by simp only [Nat.zero_add]; rw [goodIdx, hlook_ext]; simp)
          (fun m hm => by simpa using hbad_ext m hm)
        simpa using this
      have : copyOne ext ⟨p, some content⟩ = (ext, some (cand k)) := by
        rw [copyOne]
        simp only
        rw [← hcand, hk_ext, hlook_ext]
      rw [this, hres]

theorem foldl_copyStep_fst (imgs : List SrcImage) :
    ∀ (st : ImageStore) (ps : List String),
      (imgs.foldl copyStep (st, ps)).1 = (copy_images st imgs).1 := by
  induction imgs with
  | nil => intro st ps; rfl
  | cons img rest ih =>
    intro st ps
    show (rest.foldl copyStep (copyStep (st, ps) img)).1 = _
    rw [copy_images]
    show _ = (rest.foldl copyStep (copyStep (st, []) img)).1
    rw [copyStep, copyStep]
    simp only
    rw [ih, ih]

theorem foldl_copyStep_snd (imgs : List SrcImage) :
    ∀ (st : ImageStore) (ps : List String),
      (imgs.foldl copyStep (st, ps)).2 = ps ++ (copy_images st imgs).2 := by
  induction imgs with
  | nil => intro st ps; simp [copy_images]
  | cons img rest ih =>
    intro st ps
    show (rest.foldl copyStep (copyStep (st, ps) img)).2 = _
    rw [copy_images]
    show _ = ps ++ (rest.foldl copyStep (copyStep (st, []) img)).2
    rw [copyStep, copyStep]
    simp only
    rw [ih, ih]
    simp

theorem copy_images_append (imgs : List SrcImage) :
    ∀ (st : ImageStore), ∃ d, (copy_images st imgs).1 = st ++ d := by
  induction imgs with
  | nil => intro st; exact ⟨[], by simp [copy_images]⟩
  | cons img rest ih =>
    intro st
    obtain ⟨d0, hd0, _⟩ := copyOne_append st img
    obtain ⟨d1, hd1⟩ := ih (copyOne st img).1
    refine ⟨d0 ++ d1, ?_⟩
    rw [copy_images]
    show (rest.foldl copyStep (copyStep (st, []) img)).1 = _
    rw [copyStep]
    simp only
    rw [foldl_copyStep_fst, hd1, hd0, List.append_assoc]

theorem copy_images_stable (imgs : List SrcImage) :
    ∀ (st ext : ImageStore),
      (∀ img ∈ imgs, candsOK img (st.length + imgs.length + 1)) →
      (∃ tail, ext = (copy_images st imgs).1 ++ tail) →
      copy_images ext imgs = (ext, (copy_images st imgs).2) := by
  induction imgs with
  | nil =>
    intro st ext hn hext
    simp [copy_images]
  | cons img rest ih =>
    intro st ext hn hext
    obtain ⟨d0, hd0, hd0len⟩ := copyOne_append st img
    have hfst : (copy_images st (img :: rest)).1 = (copy_images (copyOne st img).1 rest).1 := by
      rw [copy_images]
      show (rest.foldl copyStep (copyStep (st, []) img)).1 = _
      rw [copyStep]
      simp only
      rw [foldl_copyStep_fst]
    have hsnd : (copy_images st (img :: rest)).2 =
        (copyOne st img).2.toList ++ (copy_images (copyOne st img).1 rest).2 := by
      rw [copy_images]
      show (rest.foldl copyStep (copyStep (st, []) img)).2 = _
      rw [copyStep]
      simp only
      rw [foldl_copyStep_snd]
      simp
    obtain ⟨tail, htail⟩ := hext
    rw [hfst] at htail
    obtain ⟨d1, hd1⟩ := copy_images_append rest (copyOne st img).1
    have hextOne : ∃ t2, ext = (copyOne st img).1 ++ t2 := by
      refine ⟨d1 ++ tail, ?_⟩
      rw [htail, hd1, List.append_assoc]
    have hstable1 : copyOne ext img = (ext, (copyOne st img).2) :=
      copyOne_stable st img
        (candsOK_mono (hn img (by simp)) (by simp only [List.length_cons]; omega)) ext hextOne
    have hstA_len : (copyOne st img).1.length ≤ st.length + 1 := by
      rw [hd0]; simp; omega
    have ihr : copy_images ext rest = (ext, (copy_images (copyOne st img).1 rest).2) := by
      refine ih (copyOne st img).1 ext ?_ ⟨tail, htail⟩
      intro img2 hmem
      refine candsOK_mono (hn img2 (by simp [hmem])) ?_
      simp only [List.length_cons]
      omega
    have hgoal1 : (copy_images ext (img :: rest)).1 = ext := by
      rw [copy_images]
      show (rest.foldl copyStep (copyStep (ext, []) img)).1 = _
      rw [copyStep]
      simp only
      rw [hstable1]
      simp only
      rw [foldl_copyStep_fst]
      rw [show (copy_images ext rest).1 = ext from by rw [ihr]]
    have hgoal2 : (copy_images ext (img :: rest)).2 = (copy_images st (img :: rest)).2 := by
      rw [copy_images]
      show (rest.foldl copyStep (copyStep (ext, []) img)).2 = _
      rw [copyStep]
      simp only
      rw [hstable1]
      simp only
      rw [foldl_copyStep_snd]
      rw [show (copy_images ext rest).2 = (copy_images (copyOne st img).1 rest).2 from by
        rw [ihr]]
      rw [hsnd]
      simp
    exact Prod.ext hgoal1 hgoal2

/-- Claim C2 counterexample: saving two byte-identical images whose source
files have different base filenames stores the same bytes twice under two
different names — the dedup check only walks names derived from the
source's own basename (`photo.png`, `photo_1.png`, ...), so byte-identical
content under another basename is never found.  This refutes the claim's
"the image store never holds two byte-identical files under any two names
(saving the same bytes twice, even from differently-named source files,
yields exactly one stored file)". -/
theorem claim_C2_counterexample :
    (copy_images [] [⟨"/src/a/photo.png", some 7⟩, ⟨"/src/b/image.png", some 7⟩]).1 =
      [("photo.png", 7), ("image.png", 7)] ∧
    (copy_images [] [⟨"/src/a/photo.png", some 7⟩, ⟨"/src/b/image.png", some 7⟩]).2 =
      ["photo.png", "image.png"] ∧
    ("photo.png" : String) ≠ "image.png" :=
  ⟨by decide, by decide, by decide⟩

/-- Claim C2 (amended): for every source image whose file exists the stored
name is the source's base filename, possibly with a numeric suffix; the
store never holds two byte-different files under one name (stored names
stay pairwise distinct); re-running a save with the same images changes
nothing and reuses every stored name without copying (idempotence, given
that the candidate names of each image are pairwise distinct, which holds
for every concrete filename); and byte-identical content is deduplicated
among names derived from the same base filename — saving the same bytes
from two sources with the same basename yields exactly one stored file
referenced by both entries.  (Deduplication across different base filenames
does not hold; see the counterexample.) -/
theorem claim_C2 :
    (∀ (st : ImageStore) (imgs : List SrcImage) (ps : List String),
      (st.map Prod.fst).Nodup → (((imgs.foldl copyStep (st, ps)).1).map Prod.fst).Nodup) ∧
    (∀ (st : ImageStore) (img : SrcImage) (n : String),
      (copyOne st img).2 = some n → ∃ k, n = candOf img k) ∧
    (∀ (st : ImageStore) (imgs : List SrcImage),
      (∀ img ∈ imgs, candsOK img (st.length + imgs.length + 1)) →
      copy_images (copy_images st imgs).1 imgs =
        ((copy_images st imgs).1, (copy_images st imgs).2)) ∧
    copy_images [] [⟨"/src/a/photo.png", some 7⟩, ⟨"/scans/copy/photo.png", some 7⟩] =
      ([("photo.png", 7)], ["photo.png", "photo.png"]) := by
  refine ⟨fun st imgs ps hn => copy_images_nodup imgs st ps hn,
    fun st img n h => copyOne_shape st img n h, ?_, by decide⟩
  intro st imgs hn
  exact copy_images_stable imgs st (copy_images st imgs).1 hn ⟨[], by simp⟩

theorem claim_C2_witness :
    copy_images (copy_images [] [⟨"/home/user/rotor.png", some 3⟩]).1
        [⟨"/home/user/rotor.png", some 3⟩] =
      ((copy_images [] [⟨"/home/user/rotor.png", some 3⟩]).1,
        (copy_images [] [⟨"/home/user/rotor.png", some 3⟩]).2) :=
  claim_C2.2.2.1 [] [⟨"/home/user/rotor.png", some 3⟩]
    (by intro img hmem; simp only [List.mem_singleton] at hmem; subst hmem; unfold candsOK; decide)

/-!
## Component sections: catalogs and selection state

Embedding of `ComponentSection` (src/ReportWriter.py:613-1313) for the
motor tab's sections.  A pattern definition holds the catalog's canonical
observation sentences and the optional `sub_observations` map (the key ""
marks direct sub-observation checkboxes); absence of the key is modelled by
the empty list.  The four catalogs used by a motor tab are transcribed from
src/ReportWriter.py:41-221.
-/

structure PatternDef where
  observations : List String
  sub_observations : List (String × List String)
deriving DecidableEq

def BEARING_WEAR_PATTERNS : List (String × PatternDef) :=
  [("No issues detected",
    ⟨["No significant wear patterns observed."], []⟩),
   ("Electrical Fluting (Bearing Flare)",
    ⟨["Closely spaced corrugation patterns visible on raceway surfaces.",
      "Flute-like marks observed across bearing races.",
      "Gray frosted appearance present on raceway surfaces.",
      "Washboard-like texture evident on rolling surfaces.",
      "Material removal visible in regular, repeating patterns.",
      "Symmetric damage pattern across bearing circumference.",
      "Burnt grease observed in bearing."], []⟩),
   ("Pitting/Spalling",
    ⟨["Small craters visible on raceway surfaces.",
      "Material removal observed on rolling surfaces.",
      "Progressive surface deterioration noted.",
      "Irregular surface texture present.",
      "Flaking of surface material evident.",
      "Subsurface initiated damage visible."], []⟩),
   ("Excessive Heat Discoloration",
    ⟨["Blue discoloration visible on bearing surfaces.",
      "Brown tinting present on bearing components.",
      "Straw-colored oxidation observed.",
      "Temper colors evident across races.",
      "Heat patterns visible on rolling elements.",
      "Surface oxidation layers present."], []⟩),
   ("Cage Wear/Damage",
    ⟨["Material loss observed on cage pockets.",
      "Cracks visible in cage structure.",
      "Distortion of cage components noted.",
      "Bending of cage bars evident.",
      "Broken cage segments present.",
      "Wear marks visible on cage surfaces."], []⟩),
   ("Corrosion/Rust",
    ⟨["Red-brown oxidation visible on races.",
      "Rust deposits present on rolling elements.",
      "Surface pitting from corrosion observed.",
      "Moisture staining evident on components.",
      "Oxidation layers covering bearing surfaces.",
      "Corrosion products accumulated in bearing."], []⟩),
   ("Brinelling/False Brinelling",
    ⟨["Evenly spaced depressions visible in raceways.",
      "Indentations corresponding to rolling element positions.",
      "Material displacement evident at contact points.",
      "Regular impression pattern matching element spacing.",
      "Permanent deformation observed in raceway.",
      "Circular indentation marks present."], []⟩),
   ("Lubrication Failure",
    ⟨["Dried lubricant present in bearing.",
      "Hardened grease observed.",
      "Discolored lubricant visible.",
      "Absence of lubricant in critical areas noted.",
      "Contaminated lubricant with foreign particles.",
      "Moisture present in lubricant."], []⟩),
   ("Misalignment Wear",
    ⟨["Asymmetric wear patterns observed.",
      "Uneven contact marks visible on raceways.",
      "One-sided loading evident on rolling elements.",
      "Diagonal wear pattern across bearing width.",
      "Heavier wear on one side of raceway.",
      "Non-uniform contact areas present."], []⟩)]

def ELECTRICAL_CONNECTION_PATTERNS : List (String × PatternDef) :=
  [("Status: OK",
    ⟨["Electrical connections inspected and found to be acceptable with no significant issues observed."],
     []⟩),
   ("Status: NOT OK",
    ⟨[],
     [("", ["Loose wire connections observed.",
            "Corroded terminals present.",
            "Damaged insulation noted on wiring.",
            "Burnt or discolored connections evident.",
            "Missing or damaged connection hardware.",
            "Improper wire gauge observed.",
            "Evidence of arcing at connection points.",
            "Moisture ingress at electrical connections."])]⟩)]

def MOTOR_SHAFT_PATTERNS : List (String × PatternDef) :=
  [("Status: OK",
    ⟨["Motor shaft inspected and found to be acceptable with no significant wear observed."], []⟩),
   ("Status: NOT OK",
    ⟨[],
     [("", ["Shaft surface shows scoring marks.",
            "Rust or corrosion present on shaft.",
            "Shaft exhibits wear at bearing contact areas.",
            "Shaft runout exceeds acceptable limits.",
            "Shaft shows signs of bending or deformation.",
            "Keyway damage observed.",
            "Surface finish degradation noted.",
            "Shaft diameter reduction evident."])]⟩)]

def HOUSING_WEAR_PATTERNS : List (String × PatternDef) :=
  [("Status: OK",
    ⟨["Motor housing inspected and found to be acceptable with no significant wear observed."], []⟩),
   ("Status: NOT OK",
    ⟨[],
     [("", ["Scratches visible on bore surfaces.",
            "Grooves present on mounting surfaces.",
            "Material removal evident in bearing seat.",
            "Out-of-round condition observed.",
            "Scoring marks visible on bore.",
            "Loss of surface finish noted.",
            "Wear marks at mounting interfaces.",
            "Corrosion and rust deposits evident on housing surfaces.",
            "Moisture staining evident in housing cavity.",
            "Seal groove damage observed.",
            "Distortion of groove geometry noted.",
            "Thread damage present on fastener holes.",
            "Stripped or cross-threaded holes observed.",
            "Cracks visible in housing structure.",
            "Material separation noted at critical locations.",
            "Mounting surface wear present.",
            "Elongated bolt holes visible.",
            "Deformation at mounting flange noted.",
            "Foreign particles and debris visible in housing.",
            "Contaminated lubricant present."])]⟩)]

def BEARING_REFERENCE_IMAGES : List (String × String) :=
  [("Electrical Fluting (Bearing Flare)", "fluting.png"),
   ("Pitting/Spalling", "spalling.png"),
   ("Excessive Heat Discoloration", "heat.png"),
   ("Cage Wear/Damage", "cage.png"),
   ("Corrosion/Rust", "corrosion.png"),
   ("Brinelling/False Brinelling", "brinelling.png"),
   ("Lubrication Failure", "lubrication.png"),
   ("Misalignment Wear", "misalignment.png")]

/-- The pattern-image widgets of one pattern
(`ComponentSection.pattern_image_widgets[pattern]`): either a single upload
widget, or — for the "Status: NOT OK" pattern of the six special sections —
a dict from sub-observation text to a widget, plus the optional
`__pattern_level__` widget. -/
inductive PatternImages where
  | single (paths : List String)
  | perObs (byObs : List (String × List String)) (patternLevel : Option (List String))
deriving DecidableEq

/-- One custom entry widget row: special sections create inline issue rows
(text plus optional images), bearing-like sections create named custom
pattern rows (name, observation inputs, images). -/
inductive CustomEntry where
  | inlineIssue (text : String) (images : List String)
  | namedPattern (pname : String) (observations : List String) (images : List String)
deriving DecidableEq

/-- The selection state of one `ComponentSection`: its fixed title and
catalog, the checked pattern checkboxes (in catalog order), the checked
observation checkboxes per pattern, the image widgets, the custom rows, the
notes text and the general section images. -/
@[ext]
structure CompSection where
  title : String
  wear_patterns : List (String × PatternDef)
  checked : List String
  obsChecked : List (String × List String)
  pattern_image_widgets : List (String × PatternImages)
  custom_patterns : List CustomEntry
  notes : String
  images : List String
deriving DecidableEq

/-- `str.strip()` on a `String`. -/
def strippedStr (t : String) : String := ⟨stripWS t.data⟩

/-- The `is_status_ok` test of the source (src/ReportWriter.py:688-689 and
1247-1248): exactly one canonical observation and no `sub_observations`
key. -/
def isStatusOkPattern (pd : PatternDef) : Bool :=
  decide (pd.observations.length = 1) && decide (pd.sub_observations = [])

/-- Embedding of `ComponentSection.get_selected_patterns`
(src/ReportWriter.py:1189-1194): the checked patterns in checkbox-dict
(catalog) order. -/
def get_selected_patterns (s : CompSection) : List String := s.checked

/-- Embedding of `ComponentSection.get_selected_observations`
(src/ReportWriter.py:1242-1261): a terminal status pattern always reports
its canonical observations; otherwise the checked observation checkboxes. -/
def get_selected_observations (s : CompSection) (pattern_name : String) : List String :=
  match alookup pattern_name s.wear_patterns with
  | some pd =>
    if isStatusOkPattern pd then pd.observations
    else (alookup pattern_name s.obsChecked).getD []
  | none => (alookup pattern_name s.obsChecked).getD []

/-- Embedding of `ComponentSection.get_pattern_images`
(src/ReportWriter.py:1294-1307). -/
def get_pattern_images (s : CompSection) (pattern_name : String) : List String :=
  match alookup pattern_name s.pattern_image_widgets with
  | some (.perObs _ (some pl)) => pl
  | some (.perObs _ none) => []
  | some (.single ps) => ps
  | none => []

/-- Embedding of `ComponentSection.get_observation_images`
(src/ReportWriter.py:1274-1292): exact key first, then a
whitespace-stripped comparison. -/
def get_observation_images (s : CompSection) (pattern_name observation_text : String) :
    List String :=
  match alookup pattern_name s.pattern_image_widgets with
  | some (.perObs byObs _) =>
    (match alookup observation_text byObs with
     | some ps => ps
     | none =>
       match byObs.find? (fun kv => decide (stripWS observation_text.data = stripWS kv.1.data)) with
       | some kv => kv.2
       | none => [])
  | _ => []

/-- The section titles using inline custom issue rows
(src/ReportWriter.py:1199). -/
def specialCustomTitles : List String :=
  ["Motor Housing", "Motor Shaft", "Electrical Connection", "Oil Evaluation",
   "Scroll Plate Inspection", "Visual Inspection"]

/-- Embedding of `ComponentSection.get_custom_patterns`
(src/ReportWriter.py:1196-1240): special sections report inline entries
with non-empty stripped text; other sections report named entries with a
non-empty stripped name and at least one non-empty stripped observation.  A
row of the other shape has no matching text/name input and is skipped. -/
def get_custom_patterns (s : CompSection) : List CustomEntry :=
  if s.title ∈ specialCustomTitles then
    s.custom_patterns.filterMap (fun c =>
      match c with
      | .inlineIssue t imgs =>
        let tc := strippedStr t
        if tc = "" then none else some (.inlineIssue tc imgs)
      | .namedPattern _ _ _ => none)
  else
    s.custom_patterns.filterMap (fun c =>
      match c with
      | .inlineIssue _ _ => none
      | .namedPattern nm obs imgs =>
        let nmc := strippedStr nm
        if nmc = "" then none
        else
          let obsF := (obs.map strippedStr).filter (fun o => decide (o ≠ ""))
          if obsF = [] then none else some (.namedPattern nmc obsF imgs))

/-!
## Document blocks, the grouping algorithm, and component-section emission

Embedding of the component-section slice of
`ReportGeneratorApp.generate_report` (src/ReportWriter.py:4886-5177).
Every `doc.add_*` call becomes one abstract document block; the centred
figure caption paragraph `f"Figure {n}: {label}"` is recorded structurally
as `figcap n label`.  `fs` models `os.path.exists`; `assetPath` models the
bundled `_assets` reference images (the resolved path of a reference image
name when the file exists).
-/

inductive DocBlock where
  | heading (level : Nat) (text : String)
  | para (text : String)
  | pic (path : String)
  | figcap (n : Nat) (label : String)
  | srcNote (text : String)
  | blank
  | errNote (text : String)
deriving DecidableEq

/-- Python `" ".join`. -/
def joinSpace : List String → String
  | [] => ""
  | [t] => t
  | t :: rest => t ++ " " ++ joinSpace rest

/-- The recurring image-emission loop (e.g. src/ReportWriter.py:4982-4995):
for each path, when the file exists emit the picture, its numbered caption
and a blank paragraph and advance the figure counter; otherwise, when
`withErr` is set (as in most of the loops), emit an error paragraph. -/
def emitFigures (fs : String → Bool) (withErr : Bool) (label : String → String) :
    Nat → List String → List DocBlock × Nat
  | fc, [] => ([], fc)
  | fc, p :: rest =>
    if fs p then
      let r := emitFigures fs withErr label (fc + 1) rest
      ([.pic p, .figcap fc (label p), .blank] ++ r.1, r.2)
    else
      let r := emitFigures fs withErr label fc rest
      ((if withErr then [.errNote ("Error: Image file not found - " ++ p)] else []) ++ r.1, r.2)

/-- One item of the grouping walk: a flushed run of image-free texts, or a
single item carrying images. -/
inductive GroupItem where
  | textGroup (texts : List String)
  | imageItem (text : String) (images : List String)
deriving DecidableEq

/-- Embedding of the grouping walk of src/ReportWriter.py:4941-4970 over
the ordered (text, images) items — the selected observations first, then
the inline custom issues, exactly as the two Python loops share one
`current_group` accumulator: an item without images joins the running
group; an item with images first flushes the group, then stands alone; the
walk flushes the pending group at the end. -/
def groupWalk : List String → List (String × List String) → List GroupItem
  | current_group, [] => if current_group.isEmpty then [] else [.textGroup current_group]
  | current_group, (t, imgs) :: rest =>
    if imgs.isEmpty then groupWalk (current_group ++ [t]) rest
    else
      (if current_group.isEmpty then [] else [.textGroup current_group]) ++
        .imageItem t imgs :: groupWalk [] rest

def groupItems (items : List (String × List String)) : List GroupItem :=
  groupWalk [] items

/-- Embedding of the rendering loop of src/ReportWriter.py:4972-4995: a
text group becomes one space-joined paragraph; an image item becomes its
own paragraph followed by its figures, captioned with the item's text and
consecutively numbered. -/
def render_grouped (fs : String → Bool) : Nat → List GroupItem → List DocBlock × Nat
  | fc, [] => ([], fc)
  | fc, .textGroup texts :: rest =>
    let r := render_grouped fs fc rest
    ([.para (joinSpace texts)] ++ r.1, r.2)
  | fc, .imageItem t imgs :: rest =>
    let figs := emitFigures fs true (fun _ => t) fc imgs
    let r := render_grouped fs figs.2 rest
    ([.para t] ++ figs.1 ++ r.1, r.2)

/-- The six "special" section titles of `generate_report`
(src/ReportWriter.py:4892). -/
def specialSectionTitles : List String :=
  ["Motor Housing", "Motor Shaft", "Electrical Connection", "External Inspection",
   "Internal Cylinder Inspection A", "Internal Cylinder Inspection B"]

def bearingTitles : List String := ["Drive End Bearing", "Non-Drive End Bearing"]

/-- The SKF reference-image block for bearing sections
(src/ReportWriter.py:5019-5039 and 5064-5084). -/
def emitRefImage (assetPath : String → Option String) (fc : Nat) (title pattern : String) :
    List DocBlock × Nat :=
  if title ∈ bearingTitles then
    match alookup pattern BEARING_REFERENCE_IMAGES with
    | some nm =>
      match assetPath nm with
      | some path =>
        ([.pic path, .figcap fc ("Example - " ++ pattern),
          .srcNote "(Source: SKF, Bearing Damage and Failure Analysis.)", .blank], fc + 1)
      | none => ([], fc)
    | none => ([], fc)
  else ([], fc)

/-- Embedding of one iteration of the `for pattern in selected_patterns`
loop (src/ReportWriter.py:4920-5102). -/
def emitPattern (fs : String → Bool) (assetPath : String → Option String) (s : CompSection)
    (is_special : Bool) (acc : List DocBlock × Nat) (pattern : String) : List DocBlock × Nat :=
  if is_special ∧ pattern = "Status: OK" then acc
  else if pattern = "No issues detected" then
    let selected_obs := get_selected_observations s pattern
    if selected_obs.isEmpty then acc
    else (acc.1 ++ [.para (selected_obs.headD "")], acc.2)
  else
    let headingPart : List DocBlock :=
      if ¬(is_special ∧ pattern = "Status: NOT OK") then [.heading 4 pattern] else []
    let selected_obs := get_selected_observations s pattern
    let main : List DocBlock × Nat :=
      if ¬selected_obs.isEmpty then
        if is_special ∧ pattern = "Status: NOT OK" then
          let items := selected_obs.map (fun o => (o, get_observation_images s pattern o)) ++
            (get_custom_patterns s).filterMap (fun c =>
              match c with
              | .inlineIssue t imgs => some (t, imgs)
              | .namedPattern _ _ _ => none)
          render_grouped fs acc.2 (groupItems items)
        else
          let figs := emitFigures fs true (fun _ => pattern) acc.2 (get_pattern_images s pattern)
          let r := emitRefImage assetPath figs.2 s.title pattern
          ([.para (joinSpace selected_obs)] ++ figs.1 ++ r.1, r.2)
      else
        let fallbackPart : List DocBlock :=
          if (get_custom_patterns s).isEmpty then
            [.para "Wear pattern observed (no specific details selected)."]
          else []
        if ¬is_special then
          let figs := emitFigures fs true (fun _ => pattern) acc.2 (get_pattern_images s pattern)
          let r := emitRefImage assetPath figs.2 s.title pattern
          (fallbackPart ++ figs.1 ++ r.1, r.2)
        else (fallbackPart, acc.2)
    let tailPart : List DocBlock × Nat :=
      if is_special ∧ pattern = "Status: NOT OK" then
        emitFigures fs true baseName main.2 (get_pattern_images s pattern)
      else ([], main.2)
    (acc.1 ++ headingPart ++ main.1 ++ tailPart.1, tailPart.2)

/-- Embedding of the custom-pattern block after the pattern loop
(src/ReportWriter.py:5104-5143). -/
def emitCustoms (fs : String → Bool) (s : CompSection) (selected_patterns : List String)
    (fc : Nat) : List DocBlock × Nat :=
  let is_motor_special :=
    s.title ∈ (["Motor Housing", "Motor Shaft", "Electrical Connection"] : List String)
  if ¬(is_motor_special ∧ ¬selected_patterns.isEmpty) then
    let cps := get_custom_patterns s
    if ¬cps.isEmpty then
      let hd : List DocBlock :=
        if selected_patterns.isEmpty then [.heading 3 "Observed Wear Patterns:"] else []
      let body := cps.foldl (fun acc2 c =>
        match c with
        | .inlineIssue t _ =>
          if t ≠ "" then (acc2.1 ++ [DocBlock.para t], acc2.2) else acc2
        | .namedPattern nm obs imgs =>
          let obsPart : List DocBlock := if ¬obs.isEmpty then [.para (joinSpace obs)] else []
          let figs := emitFigures fs true baseName acc2.2 imgs
          (acc2.1 ++ [DocBlock.heading 4 nm] ++ obsPart ++ figs.1, figs.2)) ([], fc)
      (hd ++ body.1, body.2)
    else ([], fc)
  else ([], fc)

/-- Embedding of the component-section emission of
`ReportGeneratorApp.generate_report` (src/ReportWriter.py:4886-5177): the
section heading; the special Status: OK shortcut (canonical sentence plus
pattern images, then stop); otherwise the "Observed Wear Patterns:" heading
and pattern loop when anything is selected, followed by the custom rows,
the empty-section fallback sentence, the notes and the general section
images. -/
def emitComponentSection (fs : String → Bool) (assetPath : String → Option String)
    (fc : Nat) (s : CompSection) : List DocBlock × Nat :=
  let selected_patterns := get_selected_patterns s
  let is_special_section := s.title ∈ specialSectionTitles
  let head : List DocBlock := [.heading 2 s.title]
  if is_special_section ∧ selected_patterns = ["Status: OK"] then
    let selected_obs := get_selected_observations s "Status: OK"
    if ¬selected_obs.isEmpty then
      let figs := emitFigures fs false baseName fc (get_pattern_images s "Status: OK")
      (head ++ [.para (selected_obs.headD "")] ++ figs.1, figs.2)
    else (head, fc)
  else
    let pat : List DocBlock × Nat :=
      if selected_patterns.isEmpty then ([], fc)
      else
        let body := selected_patterns.foldl
          (emitPattern fs assetPath s (decide (is_special_section))) ([], fc)
        ([.heading 3 "Observed Wear Patterns:"] ++ body.1, body.2)
    let cust := emitCustoms fs s selected_patterns pat.2
    let emptyPart : List DocBlock :=
      if selected_patterns.isEmpty ∧ (get_custom_patterns s).isEmpty then
        (if s.title ∈ bearingTitles then [.para (s.title ++ ": Not tested.")]
         else [.para "No significant wear patterns observed."])
      else []
    let notesPart : List DocBlock :=
      if s.notes ≠ "" then [.heading 3 "Additional Notes:", .para s.notes] else []
    let imgPart : List DocBlock × Nat :=
      if ¬s.images.isEmpty then
        let figs := emitFigures fs true baseName cust.2 s.images
        ([DocBlock.heading 3 "General Section Images:"] ++ figs.1, figs.2)
      else ([], cust.2)
    (head ++ pat.1 ++ cust.1 ++ emptyPart ++ notesPart ++ imgPart.1, imgPart.2)

/-- The figure numbers carried by the caption blocks, in emission order. -/
def capNums : List DocBlock → List Nat
  | [] => []
  | .figcap n _ :: rest => n :: capNums rest
  | _ :: rest => capNums rest

theorem capNums_append (a b : List DocBlock) : capNums (a ++ b) = capNums a ++ capNums b := by
  induction a with
  | nil => rfl
  | cons x rest ih => cases x <;> simp [capNums, ih]

theorem emitFigures_caps (fs : String → Bool) (withErr : Bool) (label : String → String) :
    ∀ (ps : List String) (fc : Nat), ∃ m,
      (emitFigures fs withErr label fc ps).2 = fc + m ∧
      capNums (emitFigures fs withErr label fc ps).1 = List.range' fc m := by
  intro ps
  induction ps with
  | nil => intro fc; exact ⟨0, rfl, rfl⟩
  | cons p rest ih =>
    intro fc
    rw [emitFigures]
    by_cases hp : fs p = true
    · obtain ⟨m, hm1, hm2⟩ := ih (fc + 1)
      refine ⟨m + 1, ?_, ?_⟩
      · simp only [if_pos hp]
        omega
      · simp only [if_pos hp]
        rw [capNums_append, hm2]
        rw [show capNums [DocBlock.pic p, DocBlock.figcap fc (label p), DocBlock.blank] =
          [fc] from rfl]
        rw [List.range'_succ]
        rfl
    · obtain ⟨m, hm1, hm2⟩ := ih fc
      refine ⟨m, ?_, ?_⟩
      · simp only [if_neg hp]
        exact hm1
      · simp only [if_neg hp]
        rw [capNums_append, hm2]
        cases withErr <;> simp [capNums]

theorem range'_glue (s m n : Nat) :
    List.range' s m ++ List.range' (s + m) n = List.range' s (m + n) := by
  rw [List.range'_append_1 s m n, Nat.add_comm n m]

theorem render_grouped_caps (fs : String → Bool) :
    ∀ (gs : List GroupItem) (fc : Nat), ∃ m,
      (render_grouped fs fc gs).2 = fc + m ∧
      capNums (render_grouped fs fc gs).1 = List.range' fc m := by
  intro gs
  induction gs with
  | nil => intro fc; exact ⟨0, rfl, rfl⟩
  | cons g rest ih =>
    intro fc
    cases g with
    | textGroup texts =>
      obtain ⟨m, hm1, hm2⟩ := ih fc
      exact ⟨m, hm1, by rw [render_grouped]; simpa [capNums] using hm2⟩
    | imageItem t imgs =>
      obtain ⟨m1, hf1, hf2⟩ := emitFigures_caps fs true (fun _ => t) imgs fc
      obtain ⟨m2, hr1, hr2⟩ := ih (emitFigures fs true (fun _ => t) fc imgs).2
      refine ⟨m1 + m2, ?_, ?_⟩
      · rw [render_grouped]
        simp only
        omega
      · rw [render_grouped]
        simp only [capNums, List.cons_append, List.append_eq, List.nil_append, List.append_assoc]
        rw [capNums_append, hf2, hr2, hf1]
        exact range'_glue fc m1 m2

theorem groupWalk_allText :
    ∀ (items : List (String × List String)) (g : List String),
      (∀ it ∈ items, it.2 = []) →
      groupWalk g items =
        (if (g ++ items.map Prod.fst).isEmpty then []
         else [.textGroup (g ++ items.map Prod.fst)]) := by
  intro items
  induction items with
  | nil => intro g h; simp [groupWalk]
  | cons it rest ih =>
    intro g h
    obtain ⟨t, imgs⟩ := it
    have himgs : imgs = [] := h (t, imgs) (by simp)
    subst himgs
    rw [groupWalk]
    simp only [List.isEmpty_nil, if_pos rfl]
    rw [ih (g ++ [t]) (fun it2 hit => h it2 (by simp [hit]))]
    simp

/-- Claim C5: the grouping algorithm of the Status: NOT OK narrative.  On
the claim's example [A, B(imgX), C, D(imgY)] the walk produces the four
groups and the rendering emits Paragraph("A"), Paragraph("B")+Figure(imgX),
Paragraph("C"), Paragraph("D")+Figure(imgY) with the figure counter
advancing from 1 to 3; a run of image-free items renders as a single
space-joined paragraph; and the caption numbers of any rendering are
consecutive from the starting counter (so they increase strictly across the
document as the counter is threaded through). -/
theorem claim_C5 :
    groupItems [("A", []), ("B", ["imgX"]), ("C", []), ("D", ["imgY"])] =
      [.textGroup ["A"], .imageItem "B" ["imgX"], .textGroup ["C"],
        .imageItem "D" ["imgY"]] ∧
    render_grouped (fun _ => true) 1
        (groupItems [("A", []), ("B", ["imgX"]), ("C", []), ("D", ["imgY"])]) =
      ([.para "A", .para "B", .pic "imgX", .figcap 1 "B", .blank,
        .para "C", .para "D", .pic "imgY", .figcap 2 "D", .blank], 3) ∧
    (∀ (fs : String → Bool) (fc : Nat) (items : List (String × List String)),
      (∀ it ∈ items, it.2 = []) → items ≠ [] →
      render_grouped fs fc (groupItems items) =
        ([.para (joinSpace (items.map Prod.fst))], fc)) ∧
    (∀ (fs : String → Bool) (gs : List GroupItem) (fc : Nat), ∃ m,
      (render_grouped fs fc gs).2 = fc + m ∧
      capNums (render_grouped fs fc gs).1 = List.range' fc m) := by
  refine ⟨by decide, by decide, ?_, fun fs gs fc => render_grouped_caps fs gs fc⟩
  intro fs fc items hall hne
  rw [groupItems, groupWalk_allText items [] hall]
  simp only [List.nil_append]
  rw [if_neg (by simpa using hne)]
  rfl

theorem claim_C5_witness :
    render_grouped (fun _ => true) 5 (groupItems [("A", []), ("C", [])]) =
      ([.para (joinSpace (([("A", ([] : List String)), ("C", [])]).map Prod.fst))], 5) :=
  claim_C5.2.2.1 (fun _ => true) 5 [("A", []), ("C", [])] (by decide) (by decide)

theorem emitFigures_no_heading (fs : String → Bool) (withErr : Bool) (label : String → String) :
    ∀ (ps : List String) (fc lv : Nat) (txt : String),
      DocBlock.heading lv txt ∉ (emitFigures fs withErr label fc ps).1 := by
  intro ps
  induction ps with
  | nil => intro fc lv txt; simp [emitFigures]
  | cons p rest ih =>
    intro fc lv txt
    rw [emitFigures]
    by_cases hp : fs p = true
    · simp only [if_pos hp]
      intro hmem
      simp only [List.mem_append, List.mem_cons, List.not_mem_nil] at hmem
      rcases hmem with (h | h | h | h) | h
      · exact absurd h (by simp)
      · exact absurd h (by simp)
      · exact absurd h (by simp)
      · exact h
      · exact absurd h (ih (fc + 1) lv txt)
    · simp only [if_neg hp]
      intro hmem
      simp only [List.mem_append] at hmem
      rcases hmem with h | h
      · cases withErr <;> simp_all
      · exact absurd h (ih fc lv txt)

/-- Claim C3 (amended): for the six special sections, when the selected
patterns are exactly ["Status: OK"] (the terminal status pattern of those
catalogs), emission is the section heading, the pattern's one canonical
sentence, and its attached images — and no "Observed Wear Patterns:"
heading.  (For non-special sections whose terminal pattern is "No issues
detected" the heading is still emitted and attached pattern images are
dropped; see the counterexample.) -/
theorem claim_C3 (fs : String → Bool) (assetPath : String → Option String) (fc : Nat)
    (s : CompSection) (pd : PatternDef) (sentence : String)
    (hsp : s.title ∈ specialSectionTitles)
    (hsel : get_selected_patterns s = ["Status: OK"])
    (hcat : alookup "Status: OK" s.wear_patterns = some pd)
    (hobs : pd.observations = [sentence])
    (hsub : pd.sub_observations = []) :
    emitComponentSection fs assetPath fc s =
      ([.heading 2 s.title, .para sentence] ++
        (emitFigures fs false baseName fc (get_pattern_images s "Status: OK")).1,
        (emitFigures fs false baseName fc (get_pattern_images s "Status: OK")).2) ∧
    DocBlock.heading 3 "Observed Wear Patterns:" ∉ (emitComponentSection fs assetPath fc s).1 := by
  have hselobs : get_selected_observations s "Status: OK" = [sentence] := by
    have hok : isStatusOkPattern pd = true := by simp [isStatusOkPattern, hobs, hsub]
    rw [get_selected_observations, hcat]
    simp [hok, hobs]
  have hmain : emitComponentSection fs assetPath fc s =
      ([.heading 2 s.title, .para sentence] ++
        (emitFigures fs false baseName fc (get_pattern_images s "Status: OK")).1,
        (emitFigures fs false baseName fc (get_pattern_images s "Status: OK")).2) := by
    simp [emitComponentSection, hsel, hselobs, hsp]
  refine ⟨hmain, ?_⟩
  rw [hmain]
  intro hmem
  simp only [List.cons_append, List.nil_append, List.mem_cons] at hmem
  rcases hmem with h | h | h
  · exact absurd h (by simp)
  · exact absurd h (by simp)
  · exact absurd h (emitFigures_no_heading fs false baseName _ fc 3 "Observed Wear Patterns:")

/-- A Motor Housing section in which only Status: OK is checked and one
image is attached to the Status: OK pattern. -/
def motorHousingOkSection : CompSection :=
  { title := "Motor Housing"
    wear_patterns := HOUSING_WEAR_PATTERNS
    checked := ["Status: OK"]
    obsChecked := [("Status: NOT OK", [])]
    pattern_image_widgets :=
      [("Status: NOT OK",
        .perObs ((HOUSING_WEAR_PATTERNS.lookup "Status: NOT OK").elim []
          (fun pd => (pd.sub_observations.lookup "").elim [] (fun subs =>
            subs.map (fun o => (o, ([] : List String)))))) (some [])),
       ("Status: OK", .single ["/photos/housing_overview.jpg"])]
    custom_patterns := []
    notes := ""
    images := [] }

theorem claim_C3_witness :
    emitComponentSection (fun _ => true) (fun _ => none) 4 motorHousingOkSection =
      ([.heading 2 motorHousingOkSection.title,
        .para "Motor housing inspected and found to be acceptable with no significant wear observed."] ++
        (emitFigures (fun _ => true) false baseName 4
          (get_pattern_images motorHousingOkSection "Status: OK")).1,
        (emitFigures (fun _ => true) false baseName 4
          (get_pattern_images motorHousingOkSection "Status: OK")).2) ∧
    DocBlock.heading 3 "Observed Wear Patterns:" ∉
      (emitComponentSection (fun _ => true) (fun _ => none) 4 motorHousingOkSection).1 :=
  claim_C3 (fun _ => true) (fun _ => none) 4 motorHousingOkSection
    ⟨["Motor housing inspected and found to be acceptable with no significant wear observed."],
      HOUSING_WEAR_PATTERNS.headD ("", ⟨[], []⟩) |>.2.sub_observations.take 0⟩
    "Motor housing inspected and found to be acceptable with no significant wear observed."
    (by decide) (by decide) (by decide) (by decide) (by decide)

/-- A Drive End Bearing section in which only the terminal "No issues
detected" pattern is checked, with one image attached to it. -/
def bearingNoIssuesSection : CompSection :=
  { title := "Drive End Bearing"
    wear_patterns := BEARING_WEAR_PATTERNS
    checked := ["No issues detected"]
    obsChecked := BEARING_WEAR_PATTERNS.filterMap (fun kv =>
      if kv.1 = "No issues detected" then none else some (kv.1, ([] : List String)))
    pattern_image_widgets := BEARING_WEAR_PATTERNS.map (fun kv =>
      (kv.1, if kv.1 = "No issues detected" then PatternImages.single ["/pics/de_bearing.png"]
        else PatternImages.single []))
    custom_patterns := []
    notes := ""
    images := [] }

/-- Claim C3 counterexample: a bearing section whose selected patterns are
exactly the terminal status pattern "No issues detected" (one observation,
no sub-observations) still gets the "Observed Wear Patterns:" heading, and
the image attached to the pattern is not emitted — refuting the claim for
component sections outside the six special titles. -/
theorem claim_C3_counterexample :
    emitComponentSection (fun _ => true) (fun _ => none) 1 bearingNoIssuesSection =
      ([.heading 2 "Drive End Bearing", .heading 3 "Observed Wear Patterns:",
        .para "No significant wear patterns observed."], 1) ∧
    DocBlock.heading 3 "Observed Wear Patterns:" ∈
      (emitComponentSection (fun _ => true) (fun _ => none) 1 bearingNoIssuesSection).1 ∧
    (∀ b ∈ (emitComponentSection (fun _ => true) (fun _ => none) 1 bearingNoIssuesSection).1,
      b ≠ DocBlock.pic "/pics/de_bearing.png") ∧
    (alookup "No issues detected" bearingNoIssuesSection.wear_patterns ≠ none ∧
      (alookup "No issues detected" bearingNoIssuesSection.wear_patterns).elim false
        isStatusOkPattern = true ∧
      get_pattern_images bearingNoIssuesSection "No issues detected" =
        ["/pics/de_bearing.png"]) :=
  ⟨by decide, by decide, by decide, by decide, by decide, by decide⟩

/-!
## Save and load of a motor tab

Embedding of `ReportGeneratorApp.save_progress`/`_save_motor_tab`
(src/ReportWriter.py:3332-3429, 3803-3845) and
`load_progress_from_path`/`_load_motor_tab`
(src/ReportWriter.py:4042-4130, 4222-4323).  A motor tab is the fixed
section list of `MotorTab.get_all_sections`
(src/ReportWriter.py:1666-1675): Motor Housing, Motor Shaft, Electrical
Connection, the Test Results section, Drive End Bearing and Non-Drive End
Bearing.  `fs` maps an absolute source path to its bytes (`none` when
`os.path.exists` fails); the project's `images/` folder holds exactly the
image store's names.
-/

/-- The widget state of `TestResultsSection`: the raw text fields, the two
checkboxes, and the four per-metric image upload widgets.  The section has
no notes widget and no general image widget. -/
structure TestResultsState where
  audio_value : String
  vibration_rpm : String
  vibration_value : String
  temperature_value : String
  res_black_red : String
  res_black_white : String
  res_black_yellow : String
  res_black_blue : String
  resistance_ok : Bool
  five_wire : Bool
  audio_images : List String
  vibration_images : List String
  temperature_images : List String
  resistance_images : List String
deriving DecidableEq

/-- The in-memory state of one motor tab, in `get_all_sections` order. -/
structure MotorRecord where
  housing : CompSection
  shaft : CompSection
  electrical : CompSection
  test : TestResultsState
  bearing_de : CompSection
  bearing_nde : CompSection
deriving DecidableEq

/-- The serialized `observations[pattern]` entry of `_save_motor_tab`
(src/ReportWriter.py:3829-3841): the selected observation sentences, the
per-observation stored image names (the `images` dict, filled only for
Motor Housing / Motor Shaft / Electrical Connection), and the
`pattern_images` key, present only when the pattern had images. -/
structure ObsInfo where
  selected : List String
  images : List (String × List String)
  pattern_images : Option (List String)
deriving DecidableEq

/-- A serialized custom entry, exactly the `get_custom_patterns` output:
`{text, images}` or `{name, observations, images}`.  The images are the raw
absolute source paths — `_save_motor_tab` stores `get_custom_patterns()`
verbatim without passing the custom images through `_copy_images`. -/
inductive CustomInfo where
  | textC (text : String) (images : List String)
  | namedC (pname : String) (observations : List String) (images : List String)
deriving DecidableEq

/-- The serialized form of one component section
(src/ReportWriter.py:3820-3841). -/
structure CompInfo where
  title : String
  selected_patterns : List String
  observations : List (String × ObsInfo)
  custom_patterns : List CustomInfo
  notes : String
  images : List String
deriving DecidableEq

/-- The serialized `test_data` of the Test Results section, restricted to
the keys the loaders read back (src/ReportWriter.py:4232-4255), plus the
per-metric image lists that `get_test_data` stores (as raw absolute source
paths — they are never passed through `_copy_images` and never restored).
The derived fields (`ok` flags other than resistance, `numeric`, `limit`,
`classification`) are written to the JSON but read by no loader, so they
are not modelled.  `notes`/`images` are the section-level keys of
`_save_motor_tab` lines 3818-3819, always `''`/`[]` for this section. -/
structure TestInfo where
  title : String
  audio_value : String
  audio_images : List String
  vibration_rpm : String
  vibration_value : String
  vibration_images : List String
  temperature_value : String
  temperature_images : List String
  resistance_ok : Bool
  res_black_red : String
  res_black_white : String
  res_black_yellow : String
  res_black_blue : String
  is_five_wire : Bool
  resistance_images : List String
  notes : String
  images : List String
deriving DecidableEq

inductive SectionInfo where
  | comp (i : CompInfo)
  | test (i : TestInfo)
deriving DecidableEq

/-- `os.path.exists` plus reading the bytes, for one source path list:
`_copy_images` applied through the file system. -/
def copyImagesFS (fs : String → Option FileBytes) (st : ImageStore) (paths : List String) :
    ImageStore × List String :=
  copy_images st (paths.map (fun p => ⟨p, fs p⟩))

/-- Embedding of `TestResultsSection.get_test_data`
(src/ReportWriter.py:1525-1585) restricted as described on `TestInfo`: the
text fields are stripped, the yellow/blue resistance fields are blanked
unless the five-wire box is checked, and the image lists are passed
through as-is. -/
def get_test_data (t : TestResultsState) : TestInfo :=
  { title := "Test Results"
    audio_value := strippedStr t.audio_value
    audio_images := t.audio_images
    vibration_rpm := strippedStr t.vibration_rpm
    vibration_value := strippedStr t.vibration_value
    vibration_images := t.vibration_images
    temperature_value := strippedStr t.temperature_value
    temperature_images := t.temperature_images
    resistance_ok := t.resistance_ok
    res_black_red := strippedStr t.res_black_red
    res_black_white := strippedStr t.res_black_white
    res_black_yellow := if t.five_wire then strippedStr t.res_black_yellow else ""
    res_black_blue := if t.five_wire then strippedStr t.res_black_blue else ""
    is_five_wire := t.five_wire
    resistance_images := t.resistance_images
    notes := ""
    images := [] }

def motorObsImagesTitles : List String :=
  ["Motor Housing", "Motor Shaft", "Electrical Connection"]

/-- The inner observation-image loop of `_save_motor_tab`
(src/ReportWriter.py:3834-3838): one step per selected observation. -/
def saveObsStep (fs : String → Option FileBytes) (s : CompSection) (pattern : String)
    (a : ImageStore × List (String × List String)) (o : String) :
    ImageStore × List (String × List String) :=
  let oi := get_observation_images s pattern o
  if ¬oi.isEmpty then
    let r := copyImagesFS fs a.1 oi
    (r.1, a.2 ++ [(o, r.2)])
  else a

/-- One `observations[pattern]` entry of `_save_motor_tab`
(src/ReportWriter.py:3828-3841), threading the image store. -/
def savePatternEntry (fs : String → Option FileBytes) (s : CompSection)
    (acc : ImageStore × List (String × ObsInfo)) (pattern : String) :
    ImageStore × List (String × ObsInfo) :=
  let obs_list := get_selected_observations s pattern
  let obsImgs :=
    if s.title ∈ motorObsImagesTitles then
      obs_list.foldl (saveObsStep fs s pattern) (acc.1, [])
    else (acc.1, [])
  let pImgs := get_pattern_images s pattern
  let pres : ImageStore × Option (List String) :=
    if ¬pImgs.isEmpty then
      let r := copyImagesFS fs obsImgs.1 pImgs
      (r.1, some r.2)
    else (obsImgs.1, none)
  (pres.1, acc.2 ++ [(pattern, ⟨obs_list, obsImgs.2, pres.2⟩)])

/-- Embedding of the component branch of `_save_motor_tab`
(src/ReportWriter.py:3820-3841), threading the image store: first the
general section images are copied, then per selected pattern the
observation images (for the three special motor titles) and the pattern
images. -/
def saveCompSection (fs : String → Option FileBytes) (st0 : ImageStore) (s : CompSection) :
    ImageStore × CompInfo :=
  let secImgs := copyImagesFS fs st0 s.images
  let obsRes := (get_selected_patterns s).foldl (savePatternEntry fs s)
    (secImgs.1, ([] : List (String × ObsInfo)))
  (obsRes.1,
   { title := s.title
     selected_patterns := get_selected_patterns s
     observations := obsRes.2
     custom_patterns := (get_custom_patterns s).map (fun c =>
       match c with
       | .inlineIssue t imgs => .textC t imgs
       | .namedPattern nm obs imgs => .namedC nm obs imgs)
     notes := s.notes
     images := secImgs.2 })

/-- Embedding of `_save_motor_tab` (src/ReportWriter.py:3803-3845) over the
fixed section order of `MotorTab.get_all_sections`. -/
def save_motor_tab (fs : String → Option FileBytes) (st : ImageStore) (r : MotorRecord) :
    ImageStore × List SectionInfo :=
  let h := saveCompSection fs st r.housing
  let sh := saveCompSection fs h.1 r.shaft
  let e := saveCompSection fs sh.1 r.electrical
  let bde := saveCompSection fs e.1 r.bearing_de
  let bnde := saveCompSection fs bde.1 r.bearing_nde
  (bnde.1,
   [.comp h.2, .comp sh.2, .comp e.2, .test (get_test_data r.test),
    .comp bde.2, .comp bnde.2])

/-- The observation-checkbox texts of one pattern, in widget order
(src/ReportWriter.py:694-887): none for a terminal status pattern; the
`sub_observations[""]` sentences for a pattern with direct
sub-observations; otherwise the non-empty canonical observations, each
followed by its nested sub-observations. -/
def obsCheckboxTexts (pd : PatternDef) : List String :=
  if isStatusOkPattern pd then []
  else if (alookup "" pd.sub_observations).isSome then (alookup "" pd.sub_observations).getD []
  else (pd.observations.filter (fun o => decide (o ≠ ""))).bind
    (fun o => o :: (alookup o pd.sub_observations).getD [])

/-- The freshly built widget state of a `ComponentSection`
(src/ReportWriter.py:626-960) for the motor tab's titles: nothing checked,
an (empty) observation-checkbox list for every non-terminal pattern, and an
empty image widget for every pattern — a per-observation dict plus the
`__pattern_level__` widget for the special sections' Status: NOT OK
pattern, a single widget otherwise. -/
def freshCompSection (title : String) (catalog : List (String × PatternDef)) : CompSection :=
  { title := title
    wear_patterns := catalog
    checked := []
    obsChecked := catalog.filterMap (fun kv =>
      if isStatusOkPattern kv.2 then none else some (kv.1, ([] : List String)))
    pattern_image_widgets := catalog.map (fun kv =>
      if isStatusOkPattern kv.2 then (kv.1, PatternImages.single [])
      else if title ∈ specialSectionTitles ∧ (alookup "" kv.2.sub_observations).isSome then
        (kv.1, PatternImages.perObs
          (((alookup "" kv.2.sub_observations).getD []).map (fun o => (o, ([] : List String))))
          (some []))
      else (kv.1, PatternImages.single []))
    custom_patterns := []
    notes := ""
    images := [] }

def freshTestResults : TestResultsState :=
  ⟨"", "", "", "", "", "", "", "", false, false, [], [], [], []⟩

/-- The freshly added motor tab created by `add_motor_tab` during load. -/
def freshMotorRecord : MotorRecord :=
  { housing := freshCompSection "Motor Housing" HOUSING_WEAR_PATTERNS
    shaft := freshCompSection "Motor Shaft" MOTOR_SHAFT_PATTERNS
    electrical := freshCompSection "Electrical Connection" ELECTRICAL_CONNECTION_PATTERNS
    test := freshTestResults
    bearing_de := freshCompSection "Drive End Bearing" BEARING_WEAR_PATTERNS
    bearing_nde := freshCompSection "Non-Drive End Bearing" BEARING_WEAR_PATTERNS }

/-- `os.path.join(images_folder, name)` on POSIX: an absolute second
component replaces the first. -/
def joinPath (folder name : String) : String :=
  match name.data with
  | '/' :: _ => name
  | _ => folder ++ "/" ++ name

/-- One `ImageUploadWidget.add_image` call during load
(src/ReportWriter.py:497-502 guarded by the loader's `os.path.exists`):
resolve the stored name against the images folder (an absolute path stays
absolute), check existence — a relative name exists exactly when the
project's image store holds it, an absolute path exactly when the source
file system does — and append unless already present. -/
def loadImageName (store : ImageStore) (fs : String → Option FileBytes) (folder : String)
    (cur : List String) (nm : String) : List String :=
  let path := joinPath folder nm
  let ex : Bool :=
    match nm.data with
    | '/' :: _ => (fs nm).isSome
    | _ => (alookup nm store).isSome
  if path ∉ cur ∧ ex = true then cur ++ [path] else cur

/-- Embedding of the component branch of `_load_motor_tab`
(src/ReportWriter.py:4269-4323), applied to a freshly built section; the
status-exclusivity handlers never fire against each other because a saved
file selects at most one status pattern. -/
def loadCompSection (store : ImageStore) (fs : String → Option FileBytes) (folder : String)
    (fresh : CompSection) (info : CompInfo) : CompSection :=
  let addAll := fun (cur : List String) (nms : List String) =>
    nms.foldl (loadImageName store fs folder) cur
  { fresh with
    checked := (fresh.wear_patterns.map Prod.fst).filter
      (fun p => decide (p ∈ info.selected_patterns))
    obsChecked := fresh.wear_patterns.filterMap (fun kv =>
      if isStatusOkPattern kv.2 then none
      else some (kv.1,
        if kv.1 ∈ info.selected_patterns then
          match alookup kv.1 info.observations with
          | some oi => (obsCheckboxTexts kv.2).filter (fun o => decide (o ∈ oi.selected))
          | none => []
        else []))
    pattern_image_widgets := fresh.pattern_image_widgets.map (fun kv =>
      if kv.1 ∈ info.selected_patterns then
        match alookup kv.1 info.observations with
        | some oi =>
          (kv.1,
            match kv.2 with
            | .perObs byObs pl =>
              .perObs
                (byObs.map (fun ow =>
                  if ow.1 ∈ oi.selected ∧ (alookup ow.1 oi.images).isSome then
                    (ow.1, addAll ow.2 ((alookup ow.1 oi.images).getD []))
                  else ow))
                (match oi.pattern_images, pl with
                 | some nms, some plv => some (addAll plv nms)
                 | _, _ => pl)
            | .single ps =>
              match oi.pattern_images with
              | some nms => .single (addAll ps nms)
              | none => .single ps)
        | none => kv
      else kv)
    custom_patterns := fresh.custom_patterns ++ info.custom_patterns.map (fun c =>
      if fresh.title ∈ specialCustomTitles then
        match c with
        | .textC t imgs => CustomEntry.inlineIssue t (addAll [] imgs)
        | .namedC _ _ _ => CustomEntry.inlineIssue "" []
      else
        match c with
        | .textC _ imgs => CustomEntry.namedPattern "" [""] (addAll [] imgs)
        | .namedC _ _ _ => CustomEntry.namedPattern "" [""] [])
    notes := info.notes
    images := addAll fresh.images info.images }

/-- Embedding of the test branch of `_load_motor_tab`
(src/ReportWriter.py:4231-4267): only the raw text fields and the two
checkboxes are restored (yellow/blue only in five-wire mode); the
per-metric image lists are not read back. -/
def loadTestSection (fresh : TestResultsState) (info : TestInfo) : TestResultsState :=
  { fresh with
    audio_value := info.audio_value
    vibration_rpm := info.vibration_rpm
    vibration_value := info.vibration_value
    temperature_value := info.temperature_value
    res_black_red := info.res_black_red
    res_black_white := info.res_black_white
    resistance_ok := info.resistance_ok
    five_wire := info.is_five_wire
    res_black_yellow :=
      if info.is_five_wire then info.res_black_yellow else fresh.res_black_yellow
    res_black_blue :=
      if info.is_five_wire then info.res_black_blue else fresh.res_black_blue }

/-- Embedding of `_load_motor_tab` (src/ReportWriter.py:4222-4323): build a
fresh motor tab and apply each serialized section to the section of the
same title (unknown titles are skipped). -/
def load_motor_tab (store : ImageStore) (fs : String → Option FileBytes) (folder : String)
    (infos : List SectionInfo) : MotorRecord :=
  infos.foldl
    (fun r si =>
      match si with
      | .test ti =>
        if ti.title = "Test Results" then { r with test := loadTestSection r.test ti } else r
      | .comp ci =>
        if ci.title = "Motor Housing" then
          { r with housing := loadCompSection store fs folder r.housing ci }
        else if ci.title = "Motor Shaft" then
          { r with shaft := loadCompSection store fs folder r.shaft ci }
        else if ci.title = "Electrical Connection" then
          { r with electrical := loadCompSection store fs folder r.electrical ci }
        else if ci.title = "Drive End Bearing" then
          { r with bearing_de := loadCompSection store fs folder r.bearing_de ci }
        else if ci.title = "Non-Drive End Bearing" then
          { r with bearing_nde := loadCompSection store fs folder r.bearing_nde ci }
        else r)
    freshMotorRecord

/-- A pattern-image widget holding no images — the state of every freshly
created widget. -/
def widgetEmpty : PatternImages → Prop
  | .single ps => ps = []
  | .perObs byObs pl => (∀ ow ∈ byObs, ow.2 = []) ∧ (pl = none ∨ pl = some [])

/-- All pattern-image widgets of a section hold no images. -/
def widgetsEmpty (s : CompSection) : Prop :=
  ∀ kv ∈ s.pattern_image_widgets, widgetEmpty kv.2

/-- The selection parameters of one component section: which pattern
checkboxes are checked, which observation checkboxes are checked under each
checked pattern, the inline custom issue texts, and the notes text. -/
structure CompParams where
  checkedF : String → Bool
  obsSel : String → String → Bool
  customs : List String
  notes : String

/-- The section state reached from a fresh section by checking the
parameters' boxes and typing the parameters' texts: image-free, with
observation selections only under selected patterns. -/
def mkCompSection (title : String) (catalog : List (String × PatternDef)) (P : CompParams) :
    CompSection :=
  { freshCompSection title catalog with
    checked := (catalog.map Prod.fst).filter P.checkedF
    obsChecked := catalog.filterMap (fun kv =>
      if isStatusOkPattern kv.2 then none
      else some (kv.1,
        if P.checkedF kv.1 then (obsCheckboxTexts kv.2).filter (P.obsSel kv.1) else []))
    custom_patterns := P.customs.map (fun t => .inlineIssue t [])
    notes := P.notes }

/-- A motor tab whose five component sections are parameter-built and whose
test section holds the given state. -/
def mkMotorRecord (Ph Psh Pe : CompParams) (t : TestResultsState) (Pbde Pbnde : CompParams) :
    MotorRecord :=
  { housing := mkCompSection "Motor Housing" HOUSING_WEAR_PATTERNS Ph
    shaft := mkCompSection "Motor Shaft" MOTOR_SHAFT_PATTERNS Psh
    electrical := mkCompSection "Electrical Connection" ELECTRICAL_CONNECTION_PATTERNS Pe
    test := t
    bearing_de := mkCompSection "Drive End Bearing" BEARING_WEAR_PATTERNS Pbde
    bearing_nde := mkCompSection "Non-Drive End Bearing" BEARING_WEAR_PATTERNS Pbnde }

/-- Custom inline texts already in stripped, non-empty form (the only form
`get_custom_patterns` serializes faithfully). -/
def customs_ok (customs : List String) : Bool :=
  customs.all (fun t => decide (strippedStr t = t) && decide (t ≠ ""))

/-- Test text fields already stripped, yellow/blue blank in four-wire mode,
and no per-metric images. -/
def test_ok (t : TestResultsState) : Bool :=
  decide (strippedStr t.audio_value = t.audio_value) &&
  decide (strippedStr t.vibration_rpm = t.vibration_rpm) &&
  decide (strippedStr t.vibration_value = t.vibration_value) &&
  decide (strippedStr t.temperature_value = t.temperature_value) &&
  decide (strippedStr t.res_black_red = t.res_black_red) &&
  decide (strippedStr t.res_black_white = t.res_black_white) &&
  decide (strippedStr t.res_black_yellow = t.res_black_yellow) &&
  decide (strippedStr t.res_black_blue = t.res_black_blue) &&
  (t.five_wire || (decide (t.res_black_yellow = "") && decide (t.res_black_blue = ""))) &&
  t.audio_images.isEmpty && t.vibration_images.isEmpty &&
  t.temperature_images.isEmpty && t.resistance_images.isEmpty

theorem alookup_pair_mem {α β : Type} [DecidableEq α] {k : α} {l : List (α × β)} {b : β}
    (h : alookup k l = some b) : (k, b) ∈ l := by
  induction l with
  | nil => simp [alookup] at h
  | cons a l ih =>
    obtain ⟨a1, a2⟩ := a
    by_cases hk : a1 = k
    · subst hk
      simp [alookup] at h
      subst h
      exact List.mem_cons_self _ _
    · simp only [alookup, if_neg hk] at h
      exact List.mem_cons_of_mem _ (ih h)

theorem alookup_map_self {α β : Type} [DecidableEq α] (f : α → β) {p : α} {l : List α}
    (h : p ∈ l) : alookup p (l.map fun q => (q, f q)) = some (f p) := by
  induction l with
  | nil => cases h
  | cons a l ih =>
    by_cases hap : a = p
    · subst hap
      simp [alookup]
    · rcases List.mem_cons.mp h with h1 | h1
      · exact absurd h1.symm hap
      · simp only [List.map_cons, alookup, if_neg hap]
        exact ih h1

theorem alookup_self_of_nodup {α β : Type} [DecidableEq α] {l : List (α × β)}
    (hnd : (l.map Prod.fst).Nodup) {kv : α × β} (h : kv ∈ l) :
    alookup kv.1 l = some kv.2 := by
  induction l with
  | nil => cases h
  | cons a l ih =>
    rw [List.map_cons, List.nodup_cons] at hnd
    obtain ⟨a1, a2⟩ := a
    rcases List.mem_cons.mp h with h1 | h1
    · subst h1
      simp [alookup]
    · have hne : a1 ≠ kv.1 := by
        intro he
        exact hnd.1 (by rw [he]; exact List.mem_map.mpr ⟨kv, h1, rfl⟩)
      simp only [alookup, if_neg hne]
      exact ih hnd.2 h1

theorem alookup_filterMap_statusGuard {β : Type} (v : String × PatternDef → β)
    {l : List (String × PatternDef)} (hnd : (l.map Prod.fst).Nodup)
    {kv : String × PatternDef} (h : kv ∈ l) (hp : isStatusOkPattern kv.2 = false) :
    alookup kv.1 (l.filterMap fun x =>
      if isStatusOkPattern x.2 then none else some (x.1, v x)) = some (v kv) := by
  induction l with
  | nil => cases h
  | cons a l ih =>
    rw [List.map_cons, List.nodup_cons] at hnd
    rcases List.mem_cons.mp h with h1 | h1
    · subst h1
      rw [List.filterMap_cons]
      simp [hp, alookup]
    · have hne : a.1 ≠ kv.1 := by
        intro he
        exact hnd.1 (by rw [he]; exact List.mem_map.mpr ⟨kv, h1, rfl⟩)
      rw [List.filterMap_cons]
      by_cases ha : isStatusOkPattern a.2
      · simp only [ha, if_pos]
        exact ih hnd.2 h1
      · simp only [ha, Bool.false_eq_true, if_neg, if_false]
        simp only [alookup, if_neg hne]
        exact ih hnd.2 h1

theorem filter_mem_filter {α : Type} [DecidableEq α] (q : α → Bool) (l : List α) :
    l.filter (fun a => decide (a ∈ l.filter q)) = l.filter q := by
  apply List.filter_congr
  intro a ha
  simp [List.mem_filter, ha]

theorem foldl_fixed {α β : Type} {f : α → β → α} {l : List β}
    (hf : ∀ x o, o ∈ l → f x o = x) (x : α) : l.foldl f x = x := by
  induction l generalizing x with
  | nil => rfl
  | cons a l ih =>
    rw [List.foldl_cons, hf x a (List.mem_cons_self a l)]
    exact ih (fun y o ho => hf y o (List.mem_cons_of_mem _ ho)) x

theorem get_pattern_images_empty {s : CompSection} (hW : widgetsEmpty s) (p : String) :
    get_pattern_images s p = [] := by
  unfold get_pattern_images
  cases hl : alookup p s.pattern_image_widgets with
  | none => rfl
  | some w =>
    have hw := hW _ (alookup_pair_mem hl)
    cases w with
    | single ps => exact hw
    | perObs byObs pl =>
      rcases hw.2 with h | h <;> simp [h]

theorem get_observation_images_empty {s : CompSection} (hW : widgetsEmpty s) (p o : String) :
    get_observation_images s p o = [] := by
  unfold get_observation_images
  split
  · rename_i byObs pl hl
    have hw := hW _ (alookup_pair_mem hl)
    split
    · rename_i ps ho
      exact hw.1 _ (alookup_pair_mem ho)
    · split
      · rename_i kv hf
        exact hw.1 _ (List.mem_of_find?_eq_some hf)
      · rfl
  · rfl

theorem mk_widgetsEmpty (title : String) (catalog : List (String × PatternDef))
    (P : CompParams) : widgetsEmpty (mkCompSection title catalog P) := by
  intro kv hkv
  simp only [mkCompSection, freshCompSection, List.mem_map] at hkv
  obtain ⟨x, _, rfl⟩ := hkv
  by_cases h1 : isStatusOkPattern x.2 = true
  · simp only [h1, if_pos]
    rfl
  · simp only [h1, Bool.false_eq_true, if_false]
    by_cases h2 : title ∈ specialSectionTitles ∧ (alookup "" x.2.sub_observations).isSome = true
    · simp only [h2, if_pos]
      refine ⟨?_, Or.inr rfl⟩
      intro ow how
      simp only [List.mem_map] at how
      obtain ⟨o, _, rfl⟩ := how
      rfl
    · simp only [h2, if_neg, if_false]
      rfl

theorem savePatternEntry_empty {fs : String → Option FileBytes} {s : CompSection}
    (hW : widgetsEmpty s) (acc : ImageStore × List (String × ObsInfo)) (p : String) :
    savePatternEntry fs s acc p =
      (acc.1, acc.2 ++ [(p, ⟨get_selected_observations s p, [], none⟩)]) := by
  unfold savePatternEntry
  have hobs : ∀ (a : ImageStore × List (String × List String)) o,
      o ∈ get_selected_observations s p → saveObsStep fs s p a o = a := by
    intro a o _
    unfold saveObsStep
    simp [get_observation_images_empty hW]
  by_cases ht : s.title ∈ motorObsImagesTitles
  · simp [ht, foldl_fixed hobs, get_pattern_images_empty hW]
  · simp [ht, get_pattern_images_empty hW]

theorem saveCompSection_empty {fs : String → Option FileBytes} {st : ImageStore}
    {s : CompSection} (hW : widgetsEmpty s) (hI : s.images = []) :
    saveCompSection fs st s =
      (st,
       { title := s.title
         selected_patterns := get_selected_patterns s
         observations := (get_selected_patterns s).map
           (fun p => (p, ⟨get_selected_observations s p, [], none⟩))
         custom_patterns := (get_custom_patterns s).map (fun c =>
           match c with
           | .inlineIssue t imgs => .textC t imgs
           | .namedPattern nm obs imgs => .namedC nm obs imgs)
         notes := s.notes
         images := [] }) := by
  have hfold : ∀ (l : List String) (a : ImageStore) (l0 : List (String × ObsInfo)),
      l.foldl (savePatternEntry fs s) (a, l0) =
        (a, l0 ++ l.map (fun p => (p, ⟨get_selected_observations s p, [], none⟩))) := by
    intro l
    induction l with
    | nil => intro a l0; simp
    | cons p l ih =>
      intro a l0
      rw [List.foldl_cons, savePatternEntry_empty hW, ih]
      simp
  simp only [saveCompSection, hI]
  rw [show copyImagesFS fs st [] = (st, []) from rfl, hfold]
  simp

theorem filterMap_congr_mem {α β : Type} {l : List α} {f g : α → Option β}
    (h : ∀ a ∈ l, f a = g a) : l.filterMap f = l.filterMap g := by
  induction l with
  | nil => rfl
  | cons a l ih =>
    rw [List.filterMap_cons, List.filterMap_cons, h a (List.mem_cons_self a l),
      ih (fun b hb => h b (List.mem_cons_of_mem _ hb))]

theorem filterMap_inline_ok {l : List String} (hc : customs_ok l = true) :
    ((l.map (fun t => CustomEntry.inlineIssue t [])).filterMap (fun c =>
      match c with
      | .inlineIssue t imgs =>
        let tc := strippedStr t
        if tc = "" then none else some (.inlineIssue tc imgs)
      | .namedPattern _ _ _ => none)) = l.map (fun t => CustomEntry.inlineIssue t []) := by
  revert hc
  induction l with
  | nil => intro _; rfl
  | cons a l ih =>
    intro hc
    simp only [customs_ok, List.all_cons, Bool.and_eq_true, decide_eq_true_eq] at hc
    have hc2 : customs_ok l = true := hc.2
    simp only [List.map_cons, List.filterMap_cons]
    simp only [hc.1.1, if_neg hc.1.2]
    rw [ih hc2]

theorem mk_gso (title : String) (catalog : List (String × PatternDef)) (P : CompParams)
    (hnd : (catalog.map Prod.fst).Nodup) {kv : String × PatternDef} (hkv : kv ∈ catalog)
    (hp : isStatusOkPattern kv.2 = false) :
    get_selected_observations (mkCompSection title catalog P) kv.1 =
      if P.checkedF kv.1 then (obsCheckboxTexts kv.2).filter (P.obsSel kv.1) else [] := by
  unfold get_selected_observations
  have h1 : alookup kv.1 (mkCompSection title catalog P).wear_patterns = some kv.2 := by
    rw [show (mkCompSection title catalog P).wear_patterns = catalog from rfl]
    exact alookup_self_of_nodup hnd hkv
  rw [h1]
  have h2 : alookup kv.1 (mkCompSection title catalog P).obsChecked =
      some (if P.checkedF kv.1 then (obsCheckboxTexts kv.2).filter (P.obsSel kv.1) else []) := by
    rw [show (mkCompSection title catalog P).obsChecked =
      catalog.filterMap (fun x => if isStatusOkPattern x.2 then none
        else some (x.1,
          if P.checkedF x.1 then (obsCheckboxTexts x.2).filter (P.obsSel x.1) else []))
      from rfl]
    exact alookup_filterMap_statusGuard _ hnd hkv hp
  simp only [hp, Bool.false_eq_true, if_false, h2, Option.getD_some]

theorem mem_sel_iff {catalog : List (String × PatternDef)} {P : CompParams}
    {kv : String × PatternDef} (hkv : kv ∈ catalog) :
    kv.1 ∈ (catalog.map Prod.fst).filter P.checkedF ↔ P.checkedF kv.1 = true := by
  constructor
  · intro h
    exact (List.mem_filter.mp h).2
  · intro h
    exact List.mem_filter.mpr ⟨List.mem_map.mpr ⟨kv, hkv, rfl⟩, h⟩

/-- The serialized form of a parameter-built section: selections with no
stored image names, the custom texts, the notes. -/
def mkCompInfo (title : String) (catalog : List (String × PatternDef)) (P : CompParams) :
    CompInfo :=
  { title := title
    selected_patterns := get_selected_patterns (mkCompSection title catalog P)
    observations := (get_selected_patterns (mkCompSection title catalog P)).map
      (fun p => (p, ⟨get_selected_observations (mkCompSection title catalog P) p, [], none⟩))
    custom_patterns := (get_custom_patterns (mkCompSection title catalog P)).map (fun c =>
      match c with
      | .inlineIssue t imgs => .textC t imgs
      | .namedPattern nm obs imgs => .namedC nm obs imgs)
    notes := (mkCompSection title catalog P).notes
    images := [] }

theorem saveCompSection_mk (fs : String → Option FileBytes) (st : ImageStore)
    (title : String) (catalog : List (String × PatternDef)) (P : CompParams) :
    saveCompSection fs st (mkCompSection title catalog P) =
      (st, mkCompInfo title catalog P) := by
  rw [saveCompSection_empty (mk_widgetsEmpty title catalog P) rfl]
  rfl

theorem load_save_comp (store : ImageStore) (fs : String → Option FileBytes)
    (folder : String) (title : String)
    (catalog : List (String × PatternDef)) (P : CompParams)
    (hnd : (catalog.map Prod.fst).Nodup)
    (hcust : (title ∈ specialCustomTitles ∧ customs_ok P.customs = true) ∨
             (title ∉ specialCustomTitles ∧ P.customs = [])) :
    loadCompSection store fs folder (freshCompSection title catalog)
      (mkCompInfo title catalog P) =
      mkCompSection title catalog P := by
  have hsel : get_selected_patterns (mkCompSection title catalog P) =
      (catalog.map Prod.fst).filter P.checkedF := rfl
  have hfi : (freshCompSection title catalog).images = [] := rfl
  have hfc : (freshCompSection title catalog).custom_patterns = [] := rfl
  have hgcp : (mkCompSection title catalog P).custom_patterns =
      P.customs.map (fun t => .inlineIssue t []) := rfl
  simp only [loadCompSection, mkCompInfo]
  simp only [hsel]
  refine CompSection.ext rfl rfl ?_ ?_ ?_ ?_ rfl ?_
  · -- checked
    exact filter_mem_filter P.checkedF (catalog.map Prod.fst)
  · -- obsChecked
    rw [show (mkCompSection title catalog P).obsChecked =
      catalog.filterMap (fun x => if isStatusOkPattern x.2 then none
        else some (x.1,
          if P.checkedF x.1 then (obsCheckboxTexts x.2).filter (P.obsSel x.1) else []))
      from rfl]
    apply filterMap_congr_mem
    intro kv hkv
    by_cases hp : isStatusOkPattern kv.2 = true
    · simp [hp]
    · have hp' : isStatusOkPattern kv.2 = false := by
        cases h : isStatusOkPattern kv.2
        · rfl
        · exact absurd h hp
      simp only [hp', Bool.false_eq_true, if_false, Option.some.injEq, Prod.mk.injEq,
        true_and]
      by_cases hch : P.checkedF kv.1 = true
      · have hmem : kv.1 ∈ (catalog.map Prod.fst).filter P.checkedF :=
          (mem_sel_iff hkv).mpr hch
        rw [if_pos hmem,
          alookup_map_self
            (fun p => (⟨get_selected_observations (mkCompSection title catalog P) p,
              [], none⟩ : ObsInfo)) hmem]
        simp only [mk_gso title catalog P hnd hkv hp', hch, if_true]
        exact filter_mem_filter (P.obsSel kv.1) (obsCheckboxTexts kv.2)
      · have hmem : kv.1 ∉ (catalog.map Prod.fst).filter P.checkedF := by
          intro h
          exact hch ((mem_sel_iff hkv).mp h)
        rw [if_neg hmem, if_neg hch]
  · -- pattern image widgets
    conv_rhs =>
      rw [show (mkCompSection title catalog P).pattern_image_widgets =
        (freshCompSection title catalog).pattern_image_widgets from rfl,
        ← List.map_id ((freshCompSection title catalog).pattern_image_widgets)]
    apply List.map_congr_left
    intro kv hkv
    simp only [id_eq]
    by_cases hch : kv.1 ∈ (catalog.map Prod.fst).filter P.checkedF
    · rw [if_pos hch]
      rw [alookup_map_self
        (fun p => (⟨get_selected_observations (mkCompSection title catalog P) p,
          [], none⟩ : ObsInfo)) hch]
      obtain ⟨k, w⟩ := kv
      cases w with
      | single ps => rfl
      | perObs byObs pl =>
        simp only [alookup, Option.isSome_none, Bool.false_eq_true, and_false, if_false]
        rw [show byObs.map (fun ow => ow) = byObs from List.map_id byObs]
    · rw [if_neg hch]
  · -- custom patterns
    rw [hfc, hgcp, List.nil_append]
    rcases hcust with ⟨htitle, hok⟩ | ⟨htitle, hnil⟩
    · rw [show (get_custom_patterns (mkCompSection title catalog P)) =
        ((P.customs.map (fun t => CustomEntry.inlineIssue t [])).filterMap (fun c =>
          match c with
          | .inlineIssue t imgs =>
            let tc := strippedStr t
            if tc = "" then none else some (.inlineIssue tc imgs)
          | .namedPattern _ _ _ => none))
        from by
          rw [get_custom_patterns,
            show (mkCompSection title catalog P).title = title from rfl,
            if_pos htitle, hgcp]]
      rw [filterMap_inline_ok hok]
      rw [List.map_map, List.map_map]
      apply List.map_congr_left
      intro t _
      simp only [Function.comp]
      rw [show (freshCompSection title catalog).title = title from rfl, if_pos htitle]
      rfl
    · rw [hnil]
      rw [show (get_custom_patterns (mkCompSection title catalog P)) = [] from by
        rw [get_custom_patterns,
          show (mkCompSection title catalog P).title = title from rfl,
          if_neg htitle, hgcp, hnil]
        rfl]
      rfl
  · -- images
    rw [hfi]
    rfl

theorem save_motor_tab_mk (fs : String → Option FileBytes) (st : ImageStore)
    (Ph Psh Pe : CompParams) (t : TestResultsState) (Pbde Pbnde : CompParams) :
    save_motor_tab fs st (mkMotorRecord Ph Psh Pe t Pbde Pbnde) =
      (st, [.comp (mkCompInfo "Motor Housing" HOUSING_WEAR_PATTERNS Ph),
            .comp (mkCompInfo "Motor Shaft" MOTOR_SHAFT_PATTERNS Psh),
            .comp (mkCompInfo "Electrical Connection" ELECTRICAL_CONNECTION_PATTERNS Pe),
            .test (get_test_data t),
            .comp (mkCompInfo "Drive End Bearing" BEARING_WEAR_PATTERNS Pbde),
            .comp (mkCompInfo "Non-Drive End Bearing" BEARING_WEAR_PATTERNS Pbnde)]) := by
  simp only [save_motor_tab]
  dsimp only [mkMotorRecord]
  rw [saveCompSection_mk fs st "Motor Housing" HOUSING_WEAR_PATTERNS Ph]
  dsimp only
  rw [saveCompSection_mk fs st "Motor Shaft" MOTOR_SHAFT_PATTERNS Psh]
  dsimp only
  rw [saveCompSection_mk fs st "Electrical Connection" ELECTRICAL_CONNECTION_PATTERNS Pe]
  dsimp only
  rw [saveCompSection_mk fs st "Drive End Bearing" BEARING_WEAR_PATTERNS Pbde]
  dsimp only
  rw [saveCompSection_mk fs st "Non-Drive End Bearing" BEARING_WEAR_PATTERNS Pbnde]

theorem load_save_test {t : TestResultsState} (ht : test_ok t = true) :
    loadTestSection freshTestResults (get_test_data t) = t := by
  obtain ⟨av, vr, vv, tv, rbr, rbw, rby, rbb, rok, fw, ai, vi, ti, ri⟩ := t
  simp only [test_ok, Bool.and_eq_true, Bool.or_eq_true, decide_eq_true_eq,
    List.isEmpty_iff] at ht
  obtain ⟨⟨⟨⟨⟨⟨⟨⟨⟨⟨⟨⟨h1, h2⟩, h3⟩, h4⟩, h5⟩, h6⟩, h7⟩, h8⟩, h9⟩, h10⟩, h11⟩, h12⟩, h13⟩ := ht
  cases fw with
  | true =>
    simp [loadTestSection, get_test_data, freshTestResults, h1, h2, h3, h4, h5, h6, h7, h8,
      h10, h11, h12, h13]
  | false =>
    rcases h9 with h9 | ⟨hy, hb⟩
    · cases h9
    · simp [loadTestSection, get_test_data, freshTestResults, h1, h2, h3, h4, h5, h6,
        hy, hb, h10, h11, h12, h13]

theorem load_motor_tab_mk (store : ImageStore) (fs : String → Option FileBytes)
    (folder : String) (Ph Psh Pe : CompParams) (t : TestResultsState)
    (Pbde Pbnde : CompParams)
    (hH : customs_ok Ph.customs = true) (hSh : customs_ok Psh.customs = true)
    (hE : customs_ok Pe.customs = true) (hT : test_ok t = true)
    (hBde : Pbde.customs = []) (hBnde : Pbnde.customs = []) :
    load_motor_tab store fs folder
      [.comp (mkCompInfo "Motor Housing" HOUSING_WEAR_PATTERNS Ph),
       .comp (mkCompInfo "Motor Shaft" MOTOR_SHAFT_PATTERNS Psh),
       .comp (mkCompInfo "Electrical Connection" ELECTRICAL_CONNECTION_PATTERNS Pe),
       .test (get_test_data t),
       .comp (mkCompInfo "Drive End Bearing" BEARING_WEAR_PATTERNS Pbde),
       .comp (mkCompInfo "Non-Drive End Bearing" BEARING_WEAR_PATTERNS Pbnde)] =
      mkMotorRecord Ph Psh Pe t Pbde Pbnde := by
  have tH : (mkCompInfo "Motor Housing" HOUSING_WEAR_PATTERNS Ph).title =
      "Motor Housing" := rfl
  have tSh : (mkCompInfo "Motor Shaft" MOTOR_SHAFT_PATTERNS Psh).title =
      "Motor Shaft" := rfl
  have tE : (mkCompInfo "Electrical Connection" ELECTRICAL_CONNECTION_PATTERNS Pe).title =
      "Electrical Connection" := rfl
  have tT : (get_test_data t).title = "Test Results" := rfl
  have tBde : (mkCompInfo "Drive End Bearing" BEARING_WEAR_PATTERNS Pbde).title =
      "Drive End Bearing" := rfl
  have tBnde : (mkCompInfo "Non-Drive End Bearing" BEARING_WEAR_PATTERNS Pbnde).title =
      "Non-Drive End Bearing" := rfl
  have f1 : ("Motor Shaft" = "Motor Housing") = False := eq_false (by decide)
  have f2 : ("Electrical Connection" = "Motor Housing") = False := eq_false (by decide)
  have f3 : ("Electrical Connection" = "Motor Shaft") = False := eq_false (by decide)
  have f4 : ("Drive End Bearing" = "Motor Housing") = False := eq_false (by decide)
  have f5 : ("Drive End Bearing" = "Motor Shaft") = False := eq_false (by decide)
  have f6 : ("Drive End Bearing" = "Electrical Connection") = False := eq_false (by decide)
  have f7 : ("Non-Drive End Bearing" = "Motor Housing") = False := eq_false (by decide)
  have f8 : ("Non-Drive End Bearing" = "Motor Shaft") = False := eq_false (by decide)
  have f9 : ("Non-Drive End Bearing" = "Electrical Connection") = False := eq_false (by decide)
  have f10 : ("Non-Drive End Bearing" = "Drive End Bearing") = False := eq_false (by decide)
  have hndH : (HOUSING_WEAR_PATTERNS.map Prod.fst).Nodup := by decide
  have hndSh : (MOTOR_SHAFT_PATTERNS.map Prod.fst).Nodup := by decide
  have hndE : (ELECTRICAL_CONNECTION_PATTERNS.map Prod.fst).Nodup := by decide
  have hndB : (BEARING_WEAR_PATTERNS.map Prod.fst).Nodup := by decide
  simp only [load_motor_tab, List.foldl_cons, List.foldl_nil, tH, tSh, tE, tT, tBde, tBnde,
    eq_self_iff_true, f1, f2, f3, f4, f5, f6, f7, f8, f9, f10, if_true, if_false]
  dsimp only [freshMotorRecord]
  rw [load_save_comp store fs folder "Motor Housing" HOUSING_WEAR_PATTERNS Ph hndH
      (Or.inl ⟨by decide, hH⟩),
    load_save_comp store fs folder "Motor Shaft" MOTOR_SHAFT_PATTERNS Psh hndSh
      (Or.inl ⟨by decide, hSh⟩),
    load_save_comp store fs folder "Electrical Connection" ELECTRICAL_CONNECTION_PATTERNS Pe
      hndE (Or.inl ⟨by decide, hE⟩),
    load_save_comp store fs folder "Drive End Bearing" BEARING_WEAR_PATTERNS Pbde hndB
      (Or.inr ⟨by decide, hBde⟩),
    load_save_comp store fs folder "Non-Drive End Bearing" BEARING_WEAR_PATTERNS Pbnde hndB
      (Or.inr ⟨by decide, hBnde⟩),
    load_save_test hT]
  rfl

/-- The source file system of the claim's concrete motor record: exactly
one photograph exists. -/
def bore_fs : String → Option FileBytes :=
  fun p => if p = "/photos/bore.png" then some 9 else none

/-- The observation checkbox texts of the housing Status: NOT OK
pattern. -/
def housingNotOkObs : List String :=
  match alookup "Status: NOT OK" HOUSING_WEAR_PATTERNS with
  | some pd => (alookup "" pd.sub_observations).getD []
  | none => []

/-- The claim's housing section: the non-terminal Status: NOT OK pattern
selected with two observations, a source image attached to the first
observation only, and one inline custom issue. -/
def housingInstance : CompSection :=
  { freshCompSection "Motor Housing" HOUSING_WEAR_PATTERNS with
    checked := ["Status: NOT OK"]
    obsChecked := [("Status: NOT OK",
      ["Scratches visible on bore surfaces.", "Grooves present on mounting surfaces."])]
    pattern_image_widgets :=
      [("Status: OK", .single []),
       ("Status: NOT OK", .perObs (housingNotOkObs.map (fun o =>
         (o, if o = "Scratches visible on bore surfaces."
             then ["/photos/bore.png"] else [])))
         (some []))]
    custom_patterns := [.inlineIssue "Hairline crack near the terminal box." []] }

/-- The claim's one-motor record. -/
def motorInstance : MotorRecord :=
  { freshMotorRecord with housing := housingInstance }

/-- The expected reloaded housing section: identical up to the observation
image now living under the project's images folder. -/
def housingLoaded : CompSection :=
  { housingInstance with
    pattern_image_widgets :=
      [("Status: OK", .single []),
       ("Status: NOT OK", .perObs (housingNotOkObs.map (fun o =>
         (o, if o = "Scratches visible on bore surfaces."
             then ["/proj/.rpt_project/images/bore.png"] else [])))
         (some []))] }

/-- A motor record whose test section carries one audio test image. -/
def noiseRecord : MotorRecord :=
  { freshMotorRecord with
    test := { freshTestResults with audio_images := ["/photos/noise.png"] } }

def noise_fs : String → Option FileBytes :=
  fun p => if p = "/photos/noise.png" then some 5 else none

/-- Claim C4 falsified as stated: per-metric test images are serialized
(the saved `test_data` of the fourth section still carries the raw source
path, which exists) but `_load_motor_tab` never reads them back, so
`load(save(record))` drops them even though they are persisted, not
transient UI-only state. -/
theorem claim_C4_counterexample :
    noiseRecord.test.audio_images = ["/photos/noise.png"] ∧
    (noise_fs "/photos/noise.png").isSome = true ∧
    (save_motor_tab noise_fs [] noiseRecord).2[3]? =
      some (.test (get_test_data noiseRecord.test)) ∧
    (get_test_data noiseRecord.test).audio_images = ["/photos/noise.png"] ∧
    (load_motor_tab (save_motor_tab noise_fs [] noiseRecord).1 noise_fs
      "/proj/.rpt_project/images"
      (save_motor_tab noise_fs [] noiseRecord).2).test.audio_images = [] :=
  ⟨rfl, rfl, rfl, rfl, rfl⟩

/-- Claim C4 (corrected): save-then-load restores a motor record exactly
when it is image-free away from the component sections' observation,
pattern and section images.  First conjunct: for every parameter-built,
image-free motor record with stripped custom texts and test fields, a save
adds nothing to the image store and a load of the saved sections rebuilds
the record verbatim.  Second conjunct: the claim's particular record — one
motor, the non-terminal Status: NOT OK housing pattern with two
observations, one source image on the first, one inline custom issue —
saves its image once under its base filename and reloads deep-equal to the
original, the absolute source path replaced by the path under the
project's images folder. -/
theorem claim_C4 :
    (∀ (fs : String → Option FileBytes) (store st : ImageStore) (folder : String)
      (Ph Psh Pe : CompParams) (t : TestResultsState) (Pbde Pbnde : CompParams),
      customs_ok Ph.customs = true → customs_ok Psh.customs = true →
      customs_ok Pe.customs = true → test_ok t = true →
      Pbde.customs = [] → Pbnde.customs = [] →
      (save_motor_tab fs st (mkMotorRecord Ph Psh Pe t Pbde Pbnde)).1 = st ∧
      load_motor_tab store fs folder
        (save_motor_tab fs st (mkMotorRecord Ph Psh Pe t Pbde Pbnde)).2 =
        mkMotorRecord Ph Psh Pe t Pbde Pbnde) ∧
    ((save_motor_tab bore_fs [] motorInstance).1 = [("bore.png", 9)] ∧
     load_motor_tab [("bore.png", 9)] bore_fs "/proj/.rpt_project/images"
       (save_motor_tab bore_fs [] motorInstance).2 =
       { motorInstance with housing := housingLoaded }) := by
  constructor
  · intro fs store st folder Ph Psh Pe t Pbde Pbnde hH hSh hE hT hBde hBnde
    rw [save_motor_tab_mk]
    exact ⟨rfl,
      load_motor_tab_mk store fs folder Ph Psh Pe t Pbde Pbnde hH hSh hE hT hBde hBnde⟩
  · exact ⟨rfl, rfl⟩

/-- The four-wire, all-unchecked witness parameters with one custom inline
issue. -/
def wCompParams : CompParams :=
  { checkedF := fun _ => false
    obsSel := fun _ _ => false
    customs := ["Loose terminal screw."]
    notes := "ok" }

def wBearingParams : CompParams :=
  { checkedF := fun _ => false
    obsSel := fun _ _ => false
    customs := []
    notes := "" }

theorem claim_C4_witness :
    customs_ok wCompParams.customs = true ∧ test_ok freshTestResults = true ∧
    (save_motor_tab (fun _ => none) []
      (mkMotorRecord wCompParams wCompParams wCompParams freshTestResults
        wBearingParams wBearingParams)).1 = [] ∧
    load_motor_tab [] (fun _ => none) "/proj/images"
      (save_motor_tab (fun _ => none) []
        (mkMotorRecord wCompParams wCompParams wCompParams freshTestResults
          wBearingParams wBearingParams)).2 =
      mkMotorRecord wCompParams wCompParams wCompParams freshTestResults
        wBearingParams wBearingParams := by
  have h := claim_C4.1 (fun _ => none) [] [] "/proj/images" wCompParams wCompParams
    wCompParams freshTestResults wBearingParams wBearingParams
    (by decide) (by decide) (by decide) (by decide) rfl rfl
  exact ⟨by decide, by decide, h.1, h.2⟩

end ReportWriter
